import Mathlib

/-!
Verification of the code-intelligence engine (symbol index, dependency graphs,
call-chain tracer, context engine, cache) against its natural-language
specification.  All definitions are shallow embeddings of the Python source
in src/intentgraph (enhanced_agent.py, context_manager.py, cache.py):

* Python dicts become insertion-ordered association lists,
* Python floats become rationals (ℚ),
* datetime values become integer timestamps passed explicitly,
* the filesystem (file contents / existence) becomes an explicit parameter,
* code that can raise returns Option.

The input data model (FileInfo / CodeSymbol / FunctionDependency /
AnalysisResult from intentgraph.domain.models, which is not part of the
analyzed sources) is modelled from the spec, section 6.
-/

namespace CodeAgent

/-! ## Basic Python-semantics helpers -/

/-- Python list slicing xs[:n] with a possibly negative Int bound. -/
def pySlice {α : Type} (n : Int) (xs : List α) : List α :=
  if 0 ≤ n then xs.take n.toNat else xs.take ((xs.length : Int) + n).toNat

/-- Lower-case a string character-wise, like Python str.lower (ASCII fragment). -/
def pyLower (s : String) : String :=
  String.mk (s.data.map Char.toLower)

/-- Helper for pyWords: scan characters, accumulating the current word. -/
def splitWsAux : List Char → List Char → List String
  | [], acc => if acc.isEmpty then [] else [String.mk acc.reverse]
  | c :: cs, acc =>
    if c.isWhitespace then
      if acc.isEmpty then splitWsAux cs [] else String.mk acc.reverse :: splitWsAux cs []
    else splitWsAux cs (c :: acc)

/-- Python str.split() with no arguments: split on whitespace runs, dropping empties. -/
def pyWords (s : String) : List String :=
  splitWsAux s.data []

/-- Helper for pySplitChar: split on a separator, keeping empty fields. -/
def splitSepAux (sep : Char) : List Char → List Char → List String
  | [], acc => [String.mk acc.reverse]
  | c :: cs, acc =>
    if c == sep then String.mk acc.reverse :: splitSepAux sep cs []
    else splitSepAux sep cs (c :: acc)

/-- Python str.split(sep) for a single-character separator (keeps empty fields). -/
def pySplitChar (s : String) (sep : Char) : List String :=
  splitSepAux sep s.data []

/-- Join a list of strings with a separator, like sep.join(parts) in Python. -/
def joinSep (sep : String) : List String → String
  | [] => ""
  | [x] => x
  | x :: xs => x ++ sep ++ joinSep sep xs

/-- Membership of a character list as a contiguous infix of another (needle first). -/
def listHasInfix (needle : List Char) : List Char → Bool
  | [] => needle.isEmpty
  | c :: t => needle.isPrefixOf (c :: t) || listHasInfix needle t

/-- Python substring containment: needle in hay. -/
def substrOf (needle hay : String) : Bool :=
  listHasInfix needle.data hay.data

/-- Python str.startswith. -/
def pyStartsWith (s p : String) : Bool :=
  p.data.isPrefixOf s.data

/-! ## Stable sorting, as performed by Python sorted with a key function

Python sorted is stable; with reverse=True the order of equal keys is still the
input order.  We model both directions by insertion sort where a newly inserted
element (which comes earlier in the input) stops in front of the first element
it is allowed to precede, i.e. in front of elements with an equal key. -/

/-- Insert an element into a list sorted by non-increasing ℚ key, before equal keys. -/
def insertDesc {α : Type} (f : α → ℚ) (a : α) : List α → List α
  | [] => [a]
  | b :: l => if f b ≤ f a then a :: b :: l else b :: insertDesc f a l

/-- Stable sort by non-increasing ℚ key (Python sorted with reverse=True). -/
def sortDesc {α : Type} (f : α → ℚ) : List α → List α
  | [] => []
  | a :: l => insertDesc f a (sortDesc f l)

/-- Insert an element into a list sorted by non-decreasing Nat key, before equal keys. -/
def insertAscNat {α : Type} (f : α → Nat) (a : α) : List α → List α
  | [] => [a]
  | b :: l => if f a ≤ f b then a :: b :: l else b :: insertAscNat f a l

/-- Stable sort by non-decreasing Nat key (Python sorted with a key function). -/
def sortAscNat {α : Type} (f : α → Nat) : List α → List α
  | [] => []
  | a :: l => insertAscNat f a (sortAscNat f l)

/-! ## Association lists modelling insertion-ordered Python dicts -/

/-- Lookup in a Python dict modelled as an association list. -/
def assocFind {β : Type} (m : List (String × β)) (k : String) : Option β :=
  (m.find? (fun p => p.1 == k)).map (fun p => p.2)

/-- Python dict assignment d[k] = v: replace in place if the key exists
(dicts keep the original position), else append at the end. -/
def assocSet {β : Type} : List (String × β) → String → β → List (String × β)
  | [], k, v => [(k, v)]
  | p :: rest, k, v => if p.1 == k then (k, v) :: rest else p :: assocSet rest k v

/-- Python del d[k]. -/
def assocErase {β : Type} (m : List (String × β)) (k : String) : List (String × β) :=
  m.filter (fun p => p.1 != k)

/-! ## Cache (agent/cache.py)

The persistent tier is a second association list keyed by the logical key;
the source keys disk files by an md5 hash of the key, which we abstract away
(the hash is used only as an injective file name).  datetime.now() becomes an
explicit integer argument; I/O failures are not modelled. -/

/-- CacheEntry dataclass from agent/cache.py. -/
structure CacheEntry (α : Type) where
  key : String
  value : α
  created_at : Int
  expires_at : Option Int := none
  hit_count : Nat := 0
  metadata : List (String × String) := []
deriving Repr, DecidableEq

/-- CacheManager state from agent/cache.py: the two tiers plus statistics. -/
structure CacheManager (α : Type) where
  has_cache_dir : Bool := false
  ttl_seconds : Int := 3600
  max_memory_items : Nat := 1000
  memory_cache : List (String × CacheEntry α) := []
  disk_cache : List (String × CacheEntry α) := []
  hits : Nat := 0
  misses : Nat := 0
deriving Repr, DecidableEq

/-- The expiry test entry.expires_at and datetime.now() > entry.expires_at. -/
def entryExpired {α : Type} (e : CacheEntry α) (now : Int) : Bool :=
  match e.expires_at with
  | some t => decide (t < now)
  | none => false

/-- CacheManager.get: memory tier first, then the disk tier with promotion
into memory; expired entries are deleted from their tier and counted as a miss. -/
def CacheManager.get {α : Type} (c : CacheManager α) (now : Int) (key : String) :
    Option α × CacheManager α :=
  match assocFind c.memory_cache key with
  | some entry =>
    if entryExpired entry now then
      (none, { c with memory_cache := assocErase c.memory_cache key, misses := c.misses + 1 })
    else
      (some entry.value,
        { c with
          memory_cache := assocSet c.memory_cache key { entry with hit_count := entry.hit_count + 1 },
          hits := c.hits + 1 })
  | none =>
    if c.has_cache_dir then
      match assocFind c.disk_cache key with
      | some entry =>
        if entryExpired entry now then
          (none, { c with disk_cache := assocErase c.disk_cache key, misses := c.misses + 1 })
        else
          (some entry.value,
            { c with
              memory_cache := assocSet c.memory_cache key { entry with hit_count := entry.hit_count + 1 },
              hits := c.hits + 1 })
      | none => (none, { c with misses := c.misses + 1 })
    else (none, { c with misses := c.misses + 1 })

/-- CacheManager._evict_lru: sort entries by hit_count ascending and delete the
bottom 10 percent (at least one entry). -/
def evictLru {α : Type} (mem : List (String × CacheEntry α)) : List (String × CacheEntry α) :=
  let sortedEntries := sortAscNat (fun p => p.2.hit_count) mem
  let numToRemove := max 1 (sortedEntries.length / 10)
  (sortedEntries.take numToRemove).foldl (fun m p => assocErase m p.1) mem

/-- CacheManager.set: build the entry, store it in memory, evict when the
memory count exceeds the ceiling, then mirror to the disk tier. -/
def CacheManager.set {α : Type} (c : CacheManager α) (now : Int) (key : String) (value : α)
    (ttl_seconds : Option Int) (metadata : List (String × String)) : CacheManager α :=
  let ttl := ttl_seconds.getD c.ttl_seconds
  let expires_at : Option Int := if ttl > 0 then some (now + ttl) else none
  let entry : CacheEntry α :=
    { key := key, value := value, created_at := now, expires_at := expires_at,
      hit_count := 0, metadata := metadata }
  let mem1 := assocSet c.memory_cache key entry
  let mem2 := if mem1.length > c.max_memory_items then evictLru mem1 else mem1
  let dsk := if c.has_cache_dir then assocSet c.disk_cache key entry else c.disk_cache
  { c with memory_cache := mem2, disk_cache := dsk }

/-- CacheManager.invalidate. -/
def CacheManager.invalidate {α : Type} (c : CacheManager α) (key : String) : CacheManager α :=
  { c with
    memory_cache := assocErase c.memory_cache key,
    disk_cache := if c.has_cache_dir then assocErase c.disk_cache key else c.disk_cache }

/-! ## Association-list lemmas -/

theorem assocFind_assocSet {β : Type} (m : List (String × β)) (k : String) (v : β) :
    assocFind (assocSet m k v) k = some v := by
  induction m with
  | nil => simp [assocSet, assocFind]
  | cons p rest ih =>
    by_cases h : p.1 = k
    · simp [assocSet, assocFind, h]
    · simp only [assocFind] at ih ⊢
      simp [assocSet, h, List.find?, ih]

theorem assocSet_length_le {β : Type} (m : List (String × β)) (k : String) (v : β) :
    (assocSet m k v).length ≤ m.length + 1 := by
  induction m with
  | nil => simp [assocSet]
  | cons p rest ih =>
    by_cases h : p.1 = k
    · simp [assocSet, h]
    · simp only [assocSet, h]
      simp only [beq_iff_eq, h, if_false, List.length_cons]
      omega

theorem assocSet_length_of_find_none {β : Type} {m : List (String × β)} {k : String} (v : β)
    (h : assocFind m k = none) : (assocSet m k v).length = m.length + 1 := by
  induction m with
  | nil => simp [assocSet]
  | cons p rest ih =>
    by_cases hp : p.1 = k
    · exfalso
      simp [assocFind, List.find?, hp] at h
    · simp only [assocFind, List.find?] at h
      rw [show (p.1 == k) = false by simp [hp]] at h
      simp only [assocSet]
      rw [show (p.1 == k) = false by simp [hp]]
      simp only [Bool.false_eq_true, if_false, List.length_cons]
      rw [ih h]

theorem assocErase_length_le {β : Type} (m : List (String × β)) (k : String) :
    (assocErase m k).length ≤ m.length := by
  induction m with
  | nil => simp [assocErase]
  | cons p rest ih =>
    simp only [assocErase, List.filter] at ih ⊢
    cases p.1 != k <;> simp <;> omega

theorem assocErase_length_lt {β : Type} {m : List (String × β)} {p : String × β}
    (hp : p ∈ m) : (assocErase m p.1).length < m.length := by
  induction m with
  | nil => cases hp
  | cons q rest ih =>
    simp only [assocErase, List.filter]
    rcases List.mem_cons.mp hp with hq | hq
    · rw [show (q.1 != p.1) = false by simp [hq]]
      have := assocErase_length_le rest p.1
      simp only [assocErase] at this
      simp only [List.length_cons]
      omega
    · cases hqq : (q.1 != p.1) with
      | false =>
        have := assocErase_length_le rest p.1
        simp only [assocErase] at this
        simp only [List.length_cons]
        omega
      | true =>
        have := ih hq
        simp only [assocErase] at this
        simp only [List.length_cons]
        omega

theorem foldl_assocErase_length_le {β : Type} (xs : List (String × β))
    (m : List (String × β)) :
    (xs.foldl (fun acc p => assocErase acc p.1) m).length ≤ m.length := by
  induction xs generalizing m with
  | nil => simp
  | cons x rest ih =>
    simp only [List.foldl_cons]
    exact le_trans (ih (assocErase m x.1)) (assocErase_length_le m x.1)

/-! ## Stable-sort lemmas -/

theorem insertAscNat_perm {α : Type} (f : α → Nat) (a : α) (l : List α) :
    List.Perm (insertAscNat f a l) (a :: l) := by
  induction l with
  | nil => exact List.Perm.refl _
  | cons b t ih =>
    by_cases h : f a ≤ f b
    · simp only [insertAscNat, if_pos h]
      exact List.Perm.refl _
    · simp only [insertAscNat, if_neg h]
      exact List.Perm.trans (List.Perm.cons b ih) (List.Perm.swap a b t)

theorem sortAscNat_perm {α : Type} (f : α → Nat) (l : List α) :
    List.Perm (sortAscNat f l) l := by
  induction l with
  | nil => exact List.Perm.refl _
  | cons a t ih =>
    exact List.Perm.trans (insertAscNat_perm f a (sortAscNat f t)) (List.Perm.cons a ih)

theorem evictLru_length_lt {α : Type} (mem : List (String × CacheEntry α)) (h : mem ≠ []) :
    (evictLru mem).length < mem.length := by
  simp only [evictLru]
  have hperm := sortAscNat_perm (fun p => p.2.hit_count) mem
  obtain ⟨q, qs, hq⟩ : ∃ q qs, sortAscNat (fun p => p.2.hit_count) mem = q :: qs := by
    cases hs : sortAscNat (fun p => p.2.hit_count) mem with
    | nil =>
      exfalso
      have hlen := hperm.length_eq
      rw [hs] at hlen
      simp only [List.length_nil] at hlen
      exact h (List.length_eq_zero.mp hlen.symm)
    | cons q qs => exact ⟨q, qs, rfl⟩
  rw [hq]
  have h1le : 1 ≤ max 1 ((q :: qs).length / 10) := le_max_left _ _
  have hmax : max 1 ((q :: qs).length / 10) = (max 1 ((q :: qs).length / 10) - 1) + 1 := by
    omega
  rw [hmax, List.take_succ_cons]
  simp only [List.foldl_cons]
  have hqmem : q ∈ mem := (hperm.mem_iff).mp (by rw [hq]; exact List.mem_cons_self q qs)
  have h1 : (assocErase mem q.1).length < mem.length := assocErase_length_lt hqmem
  have h2 := foldl_assocErase_length_le
    (qs.take (max 1 ((q :: qs).length / 10) - 1)) (assocErase mem q.1)
  omega

/-! ## Claim C8 -/

/-- Concrete cache for the C8 counterexample: two entries with positive hit
counts, memory tier full at max_memory_items = 2, no disk tier. -/
def c8Cache : CacheManager Nat :=
  { has_cache_dir := false, ttl_seconds := 3600, max_memory_items := 2,
    memory_cache :=
      [("a", { key := "a", value := 1, created_at := 0, expires_at := none, hit_count := 1 }),
       ("b", { key := "b", value := 2, created_at := 0, expires_at := none, hit_count := 1 })],
    disk_cache := [], hits := 0, misses := 0 }

/-- C8 counterexample: set followed immediately by get can return none rather
than the stored value.  Inserting "c" into a full memory tier triggers the
eviction sweep, and the fresh entry is the unique one with hit_count 0, so it
is itself evicted; the subsequent get misses. -/
theorem C8_counterexample :
    ((c8Cache.set 0 "c" 42 none []).get 0 "c").1 = none := by decide

/-- C8 amended: the round trip set-then-get returns the stored value provided
the memory tier is below its ceiling before the set (so no eviction sweep
runs); and an expired entry found on read is deleted from the tier it was
found in (memory first, else disk) while the access is counted as a miss. -/
theorem C8_amended {α : Type} (c : CacheManager α) (now : Int) (k : String) :
    (∀ (v : α) (ttl : Option Int) (md : List (String × String)),
        c.memory_cache.length < c.max_memory_items →
        ((c.set now k v ttl md).get now k).1 = some v) ∧
    (∀ e : CacheEntry α, assocFind c.memory_cache k = some e → entryExpired e now = true →
        c.get now k =
          (none, { c with memory_cache := assocErase c.memory_cache k,
                          misses := c.misses + 1 })) ∧
    (∀ e : CacheEntry α, assocFind c.memory_cache k = none → c.has_cache_dir = true →
        assocFind c.disk_cache k = some e → entryExpired e now = true →
        c.get now k =
          (none, { c with disk_cache := assocErase c.disk_cache k,
                          misses := c.misses + 1 })) := by
  refine ⟨?_, ?_, ?_⟩
  · intro v ttl md hlt
    simp only [CacheManager.set]
    set entry : CacheEntry α :=
      { key := k, value := v, created_at := now,
        expires_at := if ttl.getD c.ttl_seconds > 0 then some (now + ttl.getD c.ttl_seconds)
          else none,
        hit_count := 0, metadata := md } with hentry
    have hle := assocSet_length_le c.memory_cache k entry
    rw [if_neg (by omega)]
    have hexp : entryExpired entry now = false := by
      rw [hentry]
      simp only [entryExpired]
      by_cases hp : ttl.getD c.ttl_seconds > 0
      · rw [if_pos hp]
        simp only [decide_eq_false_iff_not]
        omega
      · rw [if_neg hp]
    simp [CacheManager.get, assocFind_assocSet, hexp]
  · intro e h1 h2
    simp only [CacheManager.get]
    rw [h1]
    simp [h2]
  · intro e h1 h2 h3 h4
    simp only [CacheManager.get]
    rw [h1]
    simp [h2, h3, h4]

/-- Fresh cache with room, for the C8 witness. -/
def c8RoomCache : CacheManager Nat :=
  { max_memory_items := 2 }

/-- Cache with an expired memory entry, for the C8 witness. -/
def c8ExpCache : CacheManager Nat :=
  { memory_cache := [("x", { key := "x", value := 1, created_at := 0, expires_at := some 10 })] }

/-- Cache with an expired disk entry, for the C8 witness. -/
def c8DiskCache : CacheManager Nat :=
  { has_cache_dir := true,
    disk_cache := [("y", { key := "y", value := 3, created_at := 0, expires_at := some 10 })] }

/-- Witness instantiating C8_amended at concrete caches. -/
theorem C8_amended_witness :
    ((c8RoomCache.set 5 "k" 7 none []).get 5 "k").1 = some 7 ∧
    c8ExpCache.get 100 "x" =
      (none, { c8ExpCache with memory_cache := assocErase c8ExpCache.memory_cache "x",
                               misses := c8ExpCache.misses + 1 }) ∧
    c8DiskCache.get 100 "y" =
      (none, { c8DiskCache with disk_cache := assocErase c8DiskCache.disk_cache "y",
                                misses := c8DiskCache.misses + 1 }) :=
  ⟨(C8_amended c8RoomCache 5 "k").1 7 none [] (by decide),
   (C8_amended c8ExpCache 100 "x").2.1
     { key := "x", value := 1, created_at := 0, expires_at := some 10 }
     (by decide) (by decide),
   (C8_amended c8DiskCache 100 "y").2.2
     { key := "y", value := 3, created_at := 0, expires_at := some 10 }
     (by decide) (by decide) (by decide) (by decide)⟩

/-! ## Claim C10 -/

/-- C10: a get that misses memory and hits the persistent tier promotes the
entry into the memory tier with no eviction check, so the memory count grows
past max_memory_items when it was already at the ceiling; the eviction sweep
(bottom 10 percent by hit count, at least one entry) runs only inside set,
where it does remove at least one entry whenever the insert pushed the count
past the ceiling. -/
theorem C10_promotion_and_eviction {α : Type} (c : CacheManager α) (now : Int) (k : String)
    (e : CacheEntry α) :
    (assocFind c.memory_cache k = none → c.has_cache_dir = true →
      assocFind c.disk_cache k = some e → entryExpired e now = false →
        (c.get now k).1 = some e.value ∧
        ((c.get now k).2).memory_cache.length = c.memory_cache.length + 1 ∧
        (c.memory_cache.length ≥ c.max_memory_items →
          ((c.get now k).2).memory_cache.length > c.max_memory_items)) ∧
    (∀ (v : α) (ttl : Option Int) (md : List (String × String)),
      assocFind c.memory_cache k = none →
      c.memory_cache.length + 1 > c.max_memory_items →
      ((c.set now k v ttl md).memory_cache).length < c.memory_cache.length + 1) := by
  constructor
  · intro h1 h2 h3 h4
    have hget : c.get now k =
        (some e.value,
          { c with
            memory_cache := assocSet c.memory_cache k { e with hit_count := e.hit_count + 1 },
            hits := c.hits + 1 }) := by
      simp only [CacheManager.get]
      rw [h1]
      simp [h2, h3, h4]
    have hlen : ((c.get now k).2).memory_cache.length = c.memory_cache.length + 1 := by
      rw [hget]
      exact assocSet_length_of_find_none _ h1
    refine ⟨by rw [hget], hlen, ?_⟩
    intro hge
    omega
  · intro v ttl md h1 hgt
    simp only [CacheManager.set]
    set entry : CacheEntry α :=
      { key := k, value := v, created_at := now,
        expires_at := if ttl.getD c.ttl_seconds > 0 then some (now + ttl.getD c.ttl_seconds)
          else none,
        hit_count := 0, metadata := md } with hentry
    have hlen1 : (assocSet c.memory_cache k entry).length = c.memory_cache.length + 1 :=
      assocSet_length_of_find_none entry h1
    rw [if_pos (by omega)]
    have hne : assocSet c.memory_cache k entry ≠ [] := by
      intro hnil
      rw [hnil] at hlen1
      simp at hlen1
    have := evictLru_length_lt (assocSet c.memory_cache k entry) hne
    omega

/-- Cache at its memory ceiling with a disk entry, for the C10 witness. -/
def c10Cache : CacheManager Nat :=
  { has_cache_dir := true, max_memory_items := 1,
    memory_cache := [("a", { key := "a", value := 1, created_at := 0, expires_at := none })],
    disk_cache := [("b", { key := "b", value := 2, created_at := 0, expires_at := none })] }

/-- Witness instantiating C10_promotion_and_eviction at a concrete cache. -/
theorem C10_witness :
    ((c10Cache.get 0 "b").2).memory_cache.length > c10Cache.max_memory_items ∧
    ((c10Cache.set 0 "c" 9 none []).memory_cache).length < c10Cache.memory_cache.length + 1 := by
  have h := C10_promotion_and_eviction c10Cache 0 "b"
    { key := "b", value := 2, created_at := 0, expires_at := none }
  refine ⟨(h.1 (by decide) (by decide) (by decide) (by decide)).2.2 (by decide), ?_⟩
  exact (C10_promotion_and_eviction c10Cache 0 "c"
    { key := "c", value := 9, created_at := 0, expires_at := none }).2 9 none []
    (by decide) (by decide)

/-! ## Input data model

The dataclasses below come from intentgraph.domain.models, which is not among
the analyzed sources; they are modelled from the spec (section 6) and are plain
records.  UUIDs become naturals. -/

/-- Modelled from the spec: FunctionDependency of intentgraph.domain.models, a
symbol-level call edge from_symbol id → to_symbol id (spec section 6). -/
structure FunctionDependency where
  from_symbol : Nat
  to_symbol : Nat
deriving Repr, DecidableEq

/-- Modelled from the spec: CodeSymbol of intentgraph.domain.models (spec
section 6): id, name, symbol_type, line range, optional signature and
docstring, export and privacy flags. -/
structure CodeSymbol where
  id : Nat
  name : String
  symbol_type : String
  line_start : Nat
  line_end : Nat
  signature : Option String := none
  docstring : Option String := none
  is_exported : Bool := true
  is_private : Bool := false
deriving Repr, DecidableEq

/-- Modelled from the spec: per-file analyzer output (spec section 6): path,
symbols, file-level dependencies and symbol-level function_dependencies, plus
the optional externally-supplied file_purpose tag used by pattern detection. -/
structure FileInfo where
  path : String
  symbols : List CodeSymbol := []
  dependencies : List String := []
  function_dependencies : List FunctionDependency := []
  file_purpose : Option String := none
deriving Repr, DecidableEq

/-- Modelled from the spec: AnalysisResult, the snapshot of analyzed files. -/
structure AnalysisResult where
  files : List FileInfo
deriving Repr, DecidableEq

/-! ## Enhanced agent data model (ai/enhanced_agent.py) -/

/-- CodeLocation dataclass from ai/enhanced_agent.py. -/
structure CodeLocation where
  file_path : String
  symbol_name : String
  symbol_type : String
  line_start : Nat
  line_end : Nat
  signature : Option String := none
  docstring : Option String := none
  relevance_score : ℚ := 1
deriving Repr, DecidableEq

/-- CallChainNode dataclass from ai/enhanced_agent.py. -/
structure CallChainNode where
  symbol_name : String
  file_path : String
  line_number : Nat
  symbol_type : String
  depth : Nat := 0
deriving Repr, DecidableEq

/-- CallChain dataclass from ai/enhanced_agent.py. -/
structure CallChain where
  target : CallChainNode
  upstream : List (List CallChainNode) := []
  downstream : List (List CallChainNode) := []
  entry_points : List CallChainNode := []
  leaf_nodes : List CallChainNode := []
deriving Repr, DecidableEq

/-! ## Graph and index construction (lazy one-time build) -/

/-- Append a value to a keyed bucket, creating the bucket on first use
(the Python pattern: if k not in d: d[k] = [] followed by d[k].append(v)). -/
def bucketAppend {β : Type} (m : List (String × List β)) (k : String) (v : β) :
    List (String × List β) :=
  match assocFind m k with
  | some vs => assocSet m k (vs ++ [v])
  | none => m ++ [(k, [v])]

/-- The forward file-level dependency graph of _build_dependency_graphs. -/
def buildDependencyGraph (g : AnalysisResult) : List (String × List String) :=
  g.files.foldl (fun dg fi => assocSet dg fi.path fi.dependencies) []

/-- The reverse file-level dependency graph of _build_dependency_graphs (the
source fills both maps in one pass; the two updates are independent, so the
graphs are built here by separate but equivalent passes). -/
def buildReverseDependencyGraph (g : AnalysisResult) : List (String × List String) :=
  g.files.foldl
    (fun rdg fi => fi.dependencies.foldl (fun rdg dep => bucketAppend rdg dep fi.path) rdg) []

/-- The CodeLocation stored by _build_symbol_index for one symbol. -/
def symbolLocation (fi : FileInfo) (s : CodeSymbol) : CodeLocation :=
  { file_path := fi.path, symbol_name := s.name, symbol_type := s.symbol_type,
    line_start := s.line_start, line_end := s.line_end,
    signature := s.signature, docstring := s.docstring }

/-- _build_symbol_index: name → locations, in file order then symbol order. -/
def buildSymbolIndex (g : AnalysisResult) : List (String × List CodeLocation) :=
  g.files.foldl
    (fun idx fi => fi.symbols.foldl (fun idx s => bucketAppend idx s.name (symbolLocation fi s)) idx)
    []

/-- The state of an EnhancedCodebaseAgent after _ensure_initialized has run
the one-time build: analysis result, both dependency graphs, symbol index. -/
structure AgentState where
  analysis : AnalysisResult
  dependency_graph : List (String × List String)
  reverse_dependency_graph : List (String × List String)
  symbol_index : List (String × List CodeLocation)
deriving Repr, DecidableEq

/-- Build the agent state from a snapshot (the lazy one-time initialization). -/
def initAgent (g : AnalysisResult) : AgentState :=
  { analysis := g,
    dependency_graph := buildDependencyGraph g,
    reverse_dependency_graph := buildReverseDependencyGraph g,
    symbol_index := buildSymbolIndex g }

/-! ## Call edges (ai/enhanced_agent.py) -/

/-- EnhancedCodebaseAgent._find_callers: scan every file's
function_dependencies; the target symbol is resolved by NAME within the file
being scanned, and the caller by id within that same file, so a dependency
record only produces a caller when both endpoints live in that file. -/
def findCallers (g : AnalysisResult) (symbol : String) : List CodeLocation :=
  g.files.flatMap (fun fi =>
    fi.function_dependencies.filterMap (fun dep =>
      match fi.symbols.find? (fun s => s.name == symbol) with
      | none => none
      | some tgt =>
        if dep.to_symbol == tgt.id then
          match fi.symbols.find? (fun s => s.id == dep.from_symbol) with
          | some caller =>
            some { file_path := fi.path, symbol_name := caller.name,
                   symbol_type := caller.symbol_type, line_start := caller.line_start,
                   line_end := caller.line_end }
          | none => none
        else none))

/-- EnhancedCodebaseAgent._find_symbol_by_uuid: first symbol with that id. -/
def findSymbolByUuid (g : AnalysisResult) (symbol_id : Nat) : Option CodeLocation :=
  g.files.findSome? (fun fi =>
    fi.symbols.findSome? (fun s =>
      if s.id == symbol_id then
        some { file_path := fi.path, symbol_name := s.name, symbol_type := s.symbol_type,
               line_start := s.line_start, line_end := s.line_end,
               signature := s.signature, docstring := s.docstring }
      else none))

/-- EnhancedCodebaseAgent._find_callees: find the file holding the symbol by
name, then resolve every outgoing edge globally by id. -/
def findCallees (g : AnalysisResult) (symbol : String) : List CodeLocation :=
  g.files.flatMap (fun fi =>
    match fi.symbols.find? (fun s => s.name == symbol) with
    | none => []
    | some symObj =>
      fi.function_dependencies.filterMap (fun dep =>
        if dep.from_symbol == symObj.id then findSymbolByUuid g dep.to_symbol else none))

/-! ## BFS call-chain tracing (ai/enhanced_agent.py) -/

/-- Visited-set key, modelling the f-string symbol:file of the source. -/
abbrev VisitKey := String × String

/-- One queue item of the BFS loop: current symbol, path so far, depth. -/
structure BfsItem where
  sym : String
  path : List CallChainNode
  depth : Nat
deriving Repr, DecidableEq

/-- The inner for-loop over the neighbor list: enqueue each neighbor whose
(symbol, file) key is not yet visited, adding the key to the visited set;
returns the new queue items, the grown visited set, and the enqueued keys in
order (the last component is the enqueue log used to state claim C6). -/
def scanNeighbors (path : List CallChainNode) (depth : Nat) :
    List CodeLocation → List VisitKey → (List BfsItem × List VisitKey × List VisitKey)
  | [], visited => ([], visited, [])
  | loc :: rest, visited =>
    let key : VisitKey := (loc.symbol_name, loc.file_path)
    if key ∈ visited then scanNeighbors path depth rest visited
    else
      let node : CallChainNode :=
        { symbol_name := loc.symbol_name, file_path := loc.file_path,
          line_number := loc.line_start, symbol_type := loc.symbol_type, depth := depth + 1 }
      let rec2 := scanNeighbors path depth rest (key :: visited)
      (⟨loc.symbol_name, path ++ [node], depth + 1⟩ :: rec2.1, rec2.2.1, key :: rec2.2.2)

/-- The BFS while-loop shared by _trace_upstream and _trace_downstream (the two
Python bodies are identical up to the neighbor function).  Items at maxDepth or
with no neighbors finish their path; otherwise unvisited neighbors are
enqueued.  The fuel argument is structural bookkeeping only: every enqueue adds
a fresh key to the visited set, so the wrapper's fuel provably suffices (see
bfsAux_fuel_irrelevant); the second result component is the enqueue log. -/
def bfsAux (nb : String → List CodeLocation) (maxDepth : Nat) :
    Nat → List BfsItem → List VisitKey → List (List CallChainNode) → List VisitKey →
    (List (List CallChainNode) × List VisitKey)
  | _, [], _, paths, log => (paths, log)
  | 0, _ :: _, _, paths, log => (paths, log)
  | fuel + 1, item :: rest, visited, paths, log =>
    if item.depth ≥ maxDepth then
      bfsAux nb maxDepth fuel rest visited (paths ++ [item.path]) log
    else
      let ns := nb item.sym
      if ns.isEmpty then
        bfsAux nb maxDepth fuel rest visited (paths ++ [item.path]) log
      else
        let sc := scanNeighbors item.path item.depth ns visited
        bfsAux nb maxDepth fuel (rest ++ sc.1) sc.2.1 paths (log ++ sc.2.2)

/-- All (symbol name, file path) keys occurring in the snapshot; every key the
traversal ever visits is among them. -/
def allKeys (g : AnalysisResult) : List VisitKey :=
  g.files.flatMap (fun fi => fi.symbols.map (fun s => (s.name, fi.path)))

/-- Fuel that always suffices for the BFS loop (see bfsAux_fuel_irrelevant). -/
def bfsFuel (g : AnalysisResult) : Nat :=
  2 * (allKeys g).length + 2

/-- Common wrapper of _trace_upstream/_trace_downstream: seed the queue with
the target node at depth 0 (the target's key is NOT pre-marked visited, exactly
as in the source), run the loop, return (paths, enqueue log). -/
def traceBfs (g : AnalysisResult) (nb : String → List CodeLocation) (symbol : String)
    (startLoc : CodeLocation) (maxDepth : Nat) :
    List (List CallChainNode) × List VisitKey :=
  let startNode : CallChainNode :=
    { symbol_name := symbol, file_path := startLoc.file_path,
      line_number := startLoc.line_start, symbol_type := startLoc.symbol_type, depth := 0 }
  bfsAux nb maxDepth (bfsFuel g) [⟨symbol, [startNode], 0⟩] [] [] [(symbol, startLoc.file_path)]

/-- _trace_upstream: BFS over _find_callers, first 10 paths (the index lookup
mirrors the source's early return on an unknown symbol; the some-nil case is
unreachable for built indexes, whose buckets are never empty). -/
def traceUpstream (st : AgentState) (symbol : String) (maxDepth : Nat) :
    List (List CallChainNode) :=
  match assocFind st.symbol_index symbol with
  | none => []
  | some [] => []
  | some (loc :: _) =>
    ((traceBfs st.analysis (findCallers st.analysis) symbol loc maxDepth).1).take 10

/-- Enqueue log of the upstream trace (instrumentation for claim C6). -/
def traceUpstreamLog (st : AgentState) (symbol : String) (maxDepth : Nat) : List VisitKey :=
  match assocFind st.symbol_index symbol with
  | none => []
  | some [] => []
  | some (loc :: _) =>
    (traceBfs st.analysis (findCallers st.analysis) symbol loc maxDepth).2

/-- _trace_downstream: BFS over _find_callees, first 10 paths. -/
def traceDownstream (st : AgentState) (symbol : String) (maxDepth : Nat) :
    List (List CallChainNode) :=
  match assocFind st.symbol_index symbol with
  | none => []
  | some [] => []
  | some (loc :: _) =>
    ((traceBfs st.analysis (findCallees st.analysis) symbol loc maxDepth).1).take 10

/-- Enqueue log of the downstream trace (instrumentation for claim C6). -/
def traceDownstreamLog (st : AgentState) (symbol : String) (maxDepth : Nat) : List VisitKey :=
  match assocFind st.symbol_index symbol with
  | none => []
  | some [] => []
  | some (loc :: _) =>
    (traceBfs st.analysis (findCallees st.analysis) symbol loc maxDepth).2

/-- Shared body of _find_entry_points_from_paths and _find_leaf_nodes_from_paths
(the two Python helpers are textually identical): the last node of each
nonempty path, deduplicated by (symbol, file) key in first-seen order. -/
def collectTerminals : List (List CallChainNode) → List VisitKey → List CallChainNode
  | [], _ => []
  | p :: ps, seen =>
    match p.getLast? with
    | none => collectTerminals ps seen
    | some ep =>
      if (ep.symbol_name, ep.file_path) ∈ seen then collectTerminals ps seen
      else ep :: collectTerminals ps ((ep.symbol_name, ep.file_path) :: seen)

/-- EnhancedCodebaseAgent.get_call_chain: sentinel for unknown symbols, else
trace the requested directions and extract entry points and leaf nodes. -/
def getCallChain (st : AgentState) (symbol : String) (direction : String) (maxDepth : Nat) :
    CallChain :=
  match assocFind st.symbol_index symbol with
  | none =>
    { target := { symbol_name := symbol, file_path := "not_found", line_number := 0,
                  symbol_type := "unknown" } }
  | some [] =>
    { target := { symbol_name := symbol, file_path := "not_found", line_number := 0,
                  symbol_type := "unknown" } }
  | some (loc :: _) =>
    let targetNode : CallChainNode :=
      { symbol_name := symbol, file_path := loc.file_path, line_number := loc.line_start,
        symbol_type := loc.symbol_type, depth := 0 }
    let up := if direction == "upstream" || direction == "both"
      then traceUpstream st symbol maxDepth else []
    let ep := if direction == "upstream" || direction == "both"
      then collectTerminals up [] else []
    let down := if direction == "downstream" || direction == "both"
      then traceDownstream st symbol maxDepth else []
    let lf := if direction == "downstream" || direction == "both"
      then collectTerminals down [] else []
    { target := targetNode, upstream := up, downstream := down,
      entry_points := ep, leaf_nodes := lf }

/-! ## Claim C7 -/

/-- C7: for every symbol absent from the symbol index and every direction and
maxDepth, get_call_chain returns (without raising) the sentinel CallChain with
target file_path not_found and all four lists empty. -/
theorem C7_unknown_symbol_sentinel (st : AgentState) (symbol direction : String)
    (maxDepth : Nat) (h : assocFind st.symbol_index symbol = none) :
    getCallChain st symbol direction maxDepth =
      { target := { symbol_name := symbol, file_path := "not_found", line_number := 0,
                    symbol_type := "unknown", depth := 0 },
        upstream := [], downstream := [], entry_points := [], leaf_nodes := [] } := by
  simp [getCallChain, h]

/-- Witness instantiating C7_unknown_symbol_sentinel on a concrete state. -/
theorem C7_witness :
    getCallChain (initAgent { files := [] }) "missing" "both" 3 =
      { target := { symbol_name := "missing", file_path := "not_found", line_number := 0,
                    symbol_type := "unknown", depth := 0 },
        upstream := [], downstream := [], entry_points := [], leaf_nodes := [] } :=
  C7_unknown_symbol_sentinel (initAgent { files := [] }) "missing" "both" 3 (by decide)

/-! ## Claim C1 -/

/-- The spec's example snapshot: files a.py → b.py → c.py; foo in a.py calls
bar in b.py (edge recorded in a.py, where the call site is), bar calls baz in
c.py (edge recorded in b.py). -/
def exampleSnapshot : AnalysisResult :=
  { files :=
    [ { path := "a.py",
        symbols := [{ id := 1, name := "foo", symbol_type := "function",
                      line_start := 1, line_end := 5 }],
        dependencies := ["b.py"],
        function_dependencies := [{ from_symbol := 1, to_symbol := 2 }] },
      { path := "b.py",
        symbols := [{ id := 2, name := "bar", symbol_type := "function",
                      line_start := 1, line_end := 5 }],
        dependencies := ["c.py"],
        function_dependencies := [{ from_symbol := 2, to_symbol := 3 }] },
      { path := "c.py",
        symbols := [{ id := 3, name := "baz", symbol_type := "function",
                      line_start := 1, line_end := 5 }],
        dependencies := [],
        function_dependencies := [] } ] }

/-- Agent state built from the example snapshot. -/
def exampleAgent : AgentState := initAgent exampleSnapshot

/-- C1 evaluation: get_call_chain("bar", "both", 2) on the example snapshot.
The downstream path [bar, baz] and leaf baz are as the spec says, but the
upstream path is only [bar] with entry point bar itself: _find_callers resolves
the callee by name inside the file holding the dependency record, so the
cross-file caller foo in a.py is never found; the claimed upstream path
[bar, foo] with entry point foo does not occur. -/
theorem C1_example_trace :
    getCallChain exampleAgent "bar" "both" 2 =
      { target := { symbol_name := "bar", file_path := "b.py", line_number := 1,
                    symbol_type := "function", depth := 0 },
        upstream := [[{ symbol_name := "bar", file_path := "b.py", line_number := 1,
                        symbol_type := "function", depth := 0 }]],
        downstream := [[{ symbol_name := "bar", file_path := "b.py", line_number := 1,
                          symbol_type := "function", depth := 0 },
                        { symbol_name := "baz", file_path := "c.py", line_number := 1,
                          symbol_type := "function", depth := 1 }]],
        entry_points := [{ symbol_name := "bar", file_path := "b.py", line_number := 1,
                           symbol_type := "function", depth := 0 }],
        leaf_nodes := [{ symbol_name := "baz", file_path := "c.py", line_number := 1,
                         symbol_type := "function", depth := 1 }] } := by
  decide

/-- Variant snapshot with the foo→bar edge recorded in b.py instead: the
caller is then resolved by id within b.py, where foo does not live, so the
upstream trace still misses foo — no placement of the edge recovers the
spec's claimed upstream path. -/
def exampleSnapshotAlt : AnalysisResult :=
  { files :=
    [ { path := "a.py",
        symbols := [{ id := 1, name := "foo", symbol_type := "function",
                      line_start := 1, line_end := 5 }],
        dependencies := ["b.py"],
        function_dependencies := [] },
      { path := "b.py",
        symbols := [{ id := 2, name := "bar", symbol_type := "function",
                      line_start := 1, line_end := 5 }],
        dependencies := ["c.py"],
        function_dependencies := [{ from_symbol := 1, to_symbol := 2 },
                                  { from_symbol := 2, to_symbol := 3 }] },
      { path := "c.py",
        symbols := [{ id := 3, name := "baz", symbol_type := "function",
                      line_start := 1, line_end := 5 }],
        dependencies := [],
        function_dependencies := [] } ] }

/-- Even with the alternative edge placement, bar has no findable caller. -/
theorem findCallers_bar_alt_empty :
    findCallers exampleSnapshotAlt "bar" = [] := by decide

/-! ## Termination and enqueue discipline of the BFS (claim C6) -/

/-- Number of snapshot keys not yet visited: the BFS termination measure. -/
def remaining (U visited : List VisitKey) : Nat :=
  (U.filter (fun k => decide (k ∉ visited))).length

theorem remaining_filter_sublist (U : List VisitKey) (k : VisitKey) (v : List VisitKey) :
    List.Sublist (U.filter (fun x => decide (x ∉ k :: v))) (U.filter (fun x => decide (x ∉ v))) := by
  apply List.monotone_filter_right
  intro a ha
  simp only [decide_eq_true_eq] at ha ⊢
  intro hav
  exact ha (List.mem_cons_of_mem _ hav)

theorem remaining_cons_le (U : List VisitKey) (k : VisitKey) (v : List VisitKey) :
    remaining U (k :: v) ≤ remaining U v :=
  (remaining_filter_sublist U k v).length_le

theorem remaining_cons_lt {U : List VisitKey} {k : VisitKey} {v : List VisitKey}
    (hkU : k ∈ U) (hkv : k ∉ v) : remaining U (k :: v) < remaining U v := by
  rcases Nat.lt_or_ge (remaining U (k :: v)) (remaining U v) with h | h
  · exact h
  · exfalso
    have hsub := remaining_filter_sublist U k v
    have heq := hsub.eq_of_length (le_antisymm hsub.length_le h)
    have hk1 : k ∈ U.filter (fun x => decide (x ∉ v)) := by
      simp only [List.mem_filter, decide_eq_true_eq]
      exact ⟨hkU, hkv⟩
    rw [← heq] at hk1
    simp only [List.mem_filter, decide_eq_true_eq] at hk1
    exact hk1.2 (List.mem_cons_self k v)

theorem remaining_nil_visited (U : List VisitKey) : remaining U [] = U.length := by
  simp [remaining]

/-! Unfolding equations for scanNeighbors and bfsAux, stated per branch. -/

theorem scanNeighbors_cons_mem {path : List CallChainNode} {depth : Nat}
    {loc : CodeLocation} {rest : List CodeLocation} {visited : List VisitKey}
    (hv : (loc.symbol_name, loc.file_path) ∈ visited) :
    scanNeighbors path depth (loc :: rest) visited = scanNeighbors path depth rest visited := by
  simp [scanNeighbors, hv]

theorem scanNeighbors_cons_new {path : List CallChainNode} {depth : Nat}
    {loc : CodeLocation} {rest : List CodeLocation} {visited : List VisitKey}
    (hv : (loc.symbol_name, loc.file_path) ∉ visited) :
    scanNeighbors path depth (loc :: rest) visited =
      (⟨loc.symbol_name,
        path ++ [{ symbol_name := loc.symbol_name, file_path := loc.file_path,
                   line_number := loc.line_start, symbol_type := loc.symbol_type,
                   depth := depth + 1 }], depth + 1⟩ ::
          (scanNeighbors path depth rest ((loc.symbol_name, loc.file_path) :: visited)).1,
        (scanNeighbors path depth rest ((loc.symbol_name, loc.file_path) :: visited)).2.1,
        (loc.symbol_name, loc.file_path) ::
          (scanNeighbors path depth rest ((loc.symbol_name, loc.file_path) :: visited)).2.2) := by
  simp [scanNeighbors, hv]

theorem bfsAux_nil (nb : String → List CodeLocation) (maxDepth fuel : Nat)
    (visited : List VisitKey) (paths : List (List CallChainNode)) (log : List VisitKey) :
    bfsAux nb maxDepth fuel [] visited paths log = (paths, log) := by
  cases fuel <;> simp [bfsAux]

theorem bfsAux_succ_depth {nb : String → List CodeLocation} {maxDepth fuel : Nat}
    {item : BfsItem} {rest : List BfsItem} {visited : List VisitKey}
    {paths : List (List CallChainNode)} {log : List VisitKey}
    (hd : item.depth ≥ maxDepth) :
    bfsAux nb maxDepth (fuel + 1) (item :: rest) visited paths log =
      bfsAux nb maxDepth fuel rest visited (paths ++ [item.path]) log := by
  simp [bfsAux, hd]

theorem bfsAux_succ_leaf {nb : String → List CodeLocation} {maxDepth fuel : Nat}
    {item : BfsItem} {rest : List BfsItem} {visited : List VisitKey}
    {paths : List (List CallChainNode)} {log : List VisitKey}
    (hd : ¬ item.depth ≥ maxDepth) (hn : (nb item.sym).isEmpty = true) :
    bfsAux nb maxDepth (fuel + 1) (item :: rest) visited paths log =
      bfsAux nb maxDepth fuel rest visited (paths ++ [item.path]) log := by
  simp [bfsAux, hd, hn]

theorem bfsAux_succ_expand {nb : String → List CodeLocation} {maxDepth fuel : Nat}
    {item : BfsItem} {rest : List BfsItem} {visited : List VisitKey}
    {paths : List (List CallChainNode)} {log : List VisitKey}
    (hd : ¬ item.depth ≥ maxDepth) (hn : ¬ (nb item.sym).isEmpty = true) :
    bfsAux nb maxDepth (fuel + 1) (item :: rest) visited paths log =
      bfsAux nb maxDepth fuel
        (rest ++ (scanNeighbors item.path item.depth (nb item.sym) visited).1)
        (scanNeighbors item.path item.depth (nb item.sym) visited).2.1
        paths
        (log ++ (scanNeighbors item.path item.depth (nb item.sym) visited).2.2) := by
  simp [bfsAux, hd, hn]

/-! Properties of one neighbor scan. -/

theorem scanNeighbors_visited_mono (path : List CallChainNode) (depth : Nat) :
    ∀ (ns : List CodeLocation) (visited : List VisitKey) (k : VisitKey),
      k ∈ visited → k ∈ (scanNeighbors path depth ns visited).2.1 := by
  intro ns
  induction ns with
  | nil =>
    intro visited k hk
    simpa [scanNeighbors] using hk
  | cons loc rest ih =>
    intro visited k hk
    by_cases hv : (loc.symbol_name, loc.file_path) ∈ visited
    · rw [scanNeighbors_cons_mem hv]
      exact ih visited k hk
    · rw [scanNeighbors_cons_new hv]
      exact ih _ k (List.mem_cons_of_mem _ hk)

theorem scanNeighbors_keys_spec (path : List CallChainNode) (depth : Nat) :
    ∀ (ns : List CodeLocation) (visited : List VisitKey),
      ((scanNeighbors path depth ns visited).2.2).Nodup ∧
      (∀ k ∈ (scanNeighbors path depth ns visited).2.2, k ∉ visited) ∧
      (∀ k ∈ (scanNeighbors path depth ns visited).2.2,
        k ∈ (scanNeighbors path depth ns visited).2.1) := by
  intro ns
  induction ns with
  | nil =>
    intro visited
    simp [scanNeighbors]
  | cons loc rest ih =>
    intro visited
    by_cases hv : (loc.symbol_name, loc.file_path) ∈ visited
    · rw [scanNeighbors_cons_mem hv]
      exact ih visited
    · rw [scanNeighbors_cons_new hv]
      obtain ⟨ihN, ihF, ihM⟩ := ih ((loc.symbol_name, loc.file_path) :: visited)
      refine ⟨?_, ?_, ?_⟩
      · refine List.nodup_cons.mpr ⟨?_, ihN⟩
        intro hmem
        exact (ihF _ hmem) (List.mem_cons_self _ _)
      · intro k hk
        rcases List.mem_cons.mp hk with rfl | hk2
        · exact hv
        · intro hkv
          exact (ihF k hk2) (List.mem_cons_of_mem _ hkv)
      · intro k hk
        rcases List.mem_cons.mp hk with rfl | hk2
        · exact scanNeighbors_visited_mono path depth rest _ _ (List.mem_cons_self _ _)
        · exact ihM k hk2

theorem scanNeighbors_measure (U : List VisitKey) (path : List CallChainNode) (depth : Nat) :
    ∀ (ns : List CodeLocation) (visited : List VisitKey),
      (∀ loc ∈ ns, (loc.symbol_name, loc.file_path) ∈ U) →
      remaining U (scanNeighbors path depth ns visited).2.1 +
        (scanNeighbors path depth ns visited).1.length ≤ remaining U visited := by
  intro ns
  induction ns with
  | nil =>
    intro visited hU
    simp [scanNeighbors]
  | cons loc rest ih =>
    intro visited hU
    by_cases hv : (loc.symbol_name, loc.file_path) ∈ visited
    · rw [scanNeighbors_cons_mem hv]
      exact ih visited (fun l hl => hU l (List.mem_cons_of_mem _ hl))
    · rw [scanNeighbors_cons_new hv]
      simp only [List.length_cons]
      have h1 := ih ((loc.symbol_name, loc.file_path) :: visited)
        (fun l hl => hU l (List.mem_cons_of_mem _ hl))
      have h2 : remaining U ((loc.symbol_name, loc.file_path) :: visited) < remaining U visited :=
        remaining_cons_lt (hU loc (List.mem_cons_self _ _)) hv
      omega

/-- The BFS loop terminates: its result does not depend on the fuel once the
fuel covers twice the unvisited snapshot keys plus the queue length, because
every enqueue consumes a fresh key.  This is the termination argument for
_trace_upstream/_trace_downstream. -/
theorem bfsAux_fuel_irrelevant (nb : String → List CodeLocation) (maxDepth : Nat)
    (U : List VisitKey)
    (hnb : ∀ (s : String) (loc : CodeLocation), loc ∈ nb s →
      (loc.symbol_name, loc.file_path) ∈ U) :
    ∀ (fuel1 fuel2 : Nat) (queue : List BfsItem) (visited : List VisitKey)
      (paths : List (List CallChainNode)) (log : List VisitKey),
      2 * remaining U visited + queue.length ≤ fuel1 →
      2 * remaining U visited + queue.length ≤ fuel2 →
      bfsAux nb maxDepth fuel1 queue visited paths log =
        bfsAux nb maxDepth fuel2 queue visited paths log := by
  intro fuel1
  induction fuel1 using Nat.strong_induction_on with
  | _ fuel1 ih =>
    intro fuel2 queue visited paths log h1 h2
    cases queue with
    | nil => rw [bfsAux_nil, bfsAux_nil]
    | cons item rest =>
      simp only [List.length_cons] at h1 h2
      obtain ⟨f, rfl⟩ : ∃ f, fuel1 = f + 1 := ⟨fuel1 - 1, by omega⟩
      obtain ⟨g, rfl⟩ : ∃ g, fuel2 = g + 1 := ⟨fuel2 - 1, by omega⟩
      by_cases hd : item.depth ≥ maxDepth
      · rw [bfsAux_succ_depth hd, bfsAux_succ_depth hd]
        exact ih f (by omega) g rest visited (paths ++ [item.path]) log (by omega) (by omega)
      · by_cases hn : (nb item.sym).isEmpty = true
        · rw [bfsAux_succ_leaf hd hn, bfsAux_succ_leaf hd hn]
          exact ih f (by omega) g rest visited (paths ++ [item.path]) log (by omega) (by omega)
        · rw [bfsAux_succ_expand hd hn, bfsAux_succ_expand hd hn]
          have hm := scanNeighbors_measure U item.path item.depth (nb item.sym) visited
            (fun loc hl => hnb item.sym loc hl)
          apply ih f (by omega) g
          · simp only [List.length_append]
            omega
          · simp only [List.length_append]
            omega

/-- Enqueue discipline of the BFS loop: starting from a log whose tail is
duplicate-free and fully visited, the final log is the initial key followed by
a duplicate-free tail — every key other than the initial one enters the queue
at most once. -/
theorem bfsAux_log_structure (nb : String → List CodeLocation) (maxDepth : Nat) :
    ∀ (fuel : Nat) (queue : List BfsItem) (visited : List VisitKey)
      (paths : List (List CallChainNode)) (k0 : VisitKey) (logTail : List VisitKey),
      logTail.Nodup → (∀ k ∈ logTail, k ∈ visited) →
      ∃ tail2 : List VisitKey,
        (bfsAux nb maxDepth fuel queue visited paths (k0 :: logTail)).2 = k0 :: tail2 ∧
        tail2.Nodup := by
  intro fuel
  induction fuel with
  | zero =>
    intro queue visited paths k0 logTail hN _
    cases queue with
    | nil => exact ⟨logTail, by rw [bfsAux_nil], hN⟩
    | cons item rest => exact ⟨logTail, by simp [bfsAux], hN⟩
  | succ f ih =>
    intro queue visited paths k0 logTail hN hV
    cases queue with
    | nil => exact ⟨logTail, by rw [bfsAux_nil], hN⟩
    | cons item rest =>
      by_cases hd : item.depth ≥ maxDepth
      · rw [bfsAux_succ_depth hd]
        exact ih rest visited (paths ++ [item.path]) k0 logTail hN hV
      · by_cases hn : (nb item.sym).isEmpty = true
        · rw [bfsAux_succ_leaf hd hn]
          exact ih rest visited (paths ++ [item.path]) k0 logTail hN hV
        · rw [bfsAux_succ_expand hd hn]
          have hks := scanNeighbors_keys_spec item.path item.depth (nb item.sym) visited
          have hN2 : (logTail ++
              (scanNeighbors item.path item.depth (nb item.sym) visited).2.2).Nodup :=
            List.nodup_append.mpr ⟨hN, hks.1, fun a haT haK => (hks.2.1 a haK) (hV a haT)⟩
          have hV2 : ∀ k ∈ logTail ++
              (scanNeighbors item.path item.depth (nb item.sym) visited).2.2,
              k ∈ (scanNeighbors item.path item.depth (nb item.sym) visited).2.1 := by
            intro k hk
            rcases List.mem_append.mp hk with h | h
            · exact scanNeighbors_visited_mono item.path item.depth (nb item.sym) visited k
                (hV k h)
            · exact hks.2.2 k h
          have hrec := ih (rest ++ (scanNeighbors item.path item.depth (nb item.sym) visited).1)
            (scanNeighbors item.path item.depth (nb item.sym) visited).2.1 paths k0
            (logTail ++ (scanNeighbors item.path item.depth (nb item.sym) visited).2.2)
            hN2 hV2
          simpa [List.cons_append] using hrec

/-! Every neighbor produced by _find_callers or _find_callees carries a key of
the snapshot, which bounds the visited set. -/

theorem findCallers_keys {g : AnalysisResult} {symbol : String} {loc : CodeLocation}
    (h : loc ∈ findCallers g symbol) :
    (loc.symbol_name, loc.file_path) ∈ allKeys g := by
  simp only [findCallers, List.mem_flatMap] at h
  obtain ⟨fi, hfi, hmem⟩ := h
  simp only [List.mem_filterMap] at hmem
  obtain ⟨dep, _, hsome⟩ := hmem
  cases hfind : fi.symbols.find? (fun s => s.name == symbol) with
  | none =>
    rw [hfind] at hsome
    simp at hsome
  | some tgt =>
    rw [hfind] at hsome
    simp only at hsome
    by_cases hid : (dep.to_symbol == tgt.id) = true
    · rw [if_pos hid] at hsome
      cases hc : fi.symbols.find? (fun s => s.id == dep.from_symbol) with
      | none =>
        rw [hc] at hsome
        simp at hsome
      | some caller =>
        rw [hc] at hsome
        simp only [Option.some.injEq] at hsome
        subst hsome
        simp only [allKeys, List.mem_flatMap]
        exact ⟨fi, hfi, List.mem_map.mpr ⟨caller, List.mem_of_find?_eq_some hc, rfl⟩⟩
    · rw [if_neg hid] at hsome
      simp at hsome

theorem findSymbolByUuid_keys {g : AnalysisResult} {i : Nat} {loc : CodeLocation}
    (h : findSymbolByUuid g i = some loc) :
    (loc.symbol_name, loc.file_path) ∈ allKeys g := by
  obtain ⟨fi, hfi, hinner⟩ := List.exists_of_findSome?_eq_some h
  obtain ⟨s, hs, hsome⟩ := List.exists_of_findSome?_eq_some hinner
  by_cases hid : (s.id == i) = true
  · rw [if_pos hid] at hsome
    simp only [Option.some.injEq] at hsome
    subst hsome
    simp only [allKeys, List.mem_flatMap]
    exact ⟨fi, hfi, List.mem_map.mpr ⟨s, hs, rfl⟩⟩
  · rw [if_neg hid] at hsome
    cases hsome

theorem findCallees_keys {g : AnalysisResult} {symbol : String} {loc : CodeLocation}
    (h : loc ∈ findCallees g symbol) :
    (loc.symbol_name, loc.file_path) ∈ allKeys g := by
  simp only [findCallees, List.mem_flatMap] at h
  obtain ⟨fi, _, hmem⟩ := h
  cases hfind : fi.symbols.find? (fun s => s.name == symbol) with
  | none =>
    rw [hfind] at hmem
    simp at hmem
  | some symObj =>
    rw [hfind] at hmem
    simp only [List.mem_filterMap] at hmem
    obtain ⟨dep, _, hsome⟩ := hmem
    by_cases hid : (dep.from_symbol == symObj.id) = true
    · rw [if_pos hid] at hsome
      exact findSymbolByUuid_keys hsome
    · rw [if_neg hid] at hsome
      cases hsome

/-- The enqueue log of a trace is the seed key followed by a duplicate-free
tail: only the seed key can occur twice. -/
theorem traceBfs_log_nodup (g : AnalysisResult) (nb : String → List CodeLocation)
    (symbol : String) (loc : CodeLocation) (maxDepth : Nat) :
    ∃ tail2 : List VisitKey,
      (traceBfs g nb symbol loc maxDepth).2 = (symbol, loc.file_path) :: tail2 ∧
      tail2.Nodup := by
  simp only [traceBfs]
  exact bfsAux_log_structure nb maxDepth (bfsFuel g) _ [] [] (symbol, loc.file_path) []
    List.nodup_nil (by simp)

theorem nodup_count_le_one {α : Type} [BEq α] [LawfulBEq α] {l : List α}
    (h : l.Nodup) (a : α) : l.count a ≤ 1 := by
  induction l with
  | nil => simp
  | cons b t ih =>
    rw [List.count_cons]
    rcases List.nodup_cons.mp h with ⟨hb, ht⟩
    by_cases hab : (b == a) = true
    · have hba : b = a := eq_of_beq hab
      subst hba
      simp [List.count_eq_zero.mpr hb]
    · rw [if_neg hab]
      have := ih ht
      omega

theorem log_count_of_nodup_tail {l tail2 : List VisitKey} {k0 : VisitKey}
    (h : l = k0 :: tail2) (hN : tail2.Nodup) :
    (∀ k : VisitKey, k ≠ k0 → l.count k ≤ 1) ∧ l.count k0 ≤ 2 := by
  subst h
  constructor
  · intro k hk
    rw [List.count_cons]
    have hne : (k0 == k) = false := by
      simp only [beq_eq_false_iff_ne]
      exact Ne.symm hk
    rw [hne]
    simpa using nodup_count_le_one hN k
  · rw [List.count_cons]
    have h1 := nodup_count_le_one hN k0
    split <;> omega

/-! ## Claim C6 -/

/-- C6 amended: every trace terminates (the BFS result is independent of the
fuel once it reaches the provably sufficient bound, because each enqueue
consumes a fresh visited key) and returns at most 10 finite paths; every
(symbol, file) pair other than the traced target's own pair is enqueued at
most once, while the target's seed pair is not pre-marked visited and may be
enqueued twice when a cycle returns to it. -/
theorem C6_amended (st : AgentState) (symbol : String) (maxDepth : Nat) :
    (traceUpstream st symbol maxDepth).length ≤ 10 ∧
    (traceDownstream st symbol maxDepth).length ≤ 10 ∧
    (∀ (loc : CodeLocation) (rest : List CodeLocation),
      assocFind st.symbol_index symbol = some (loc :: rest) →
      (∀ k : VisitKey, k ≠ (symbol, loc.file_path) →
        (traceUpstreamLog st symbol maxDepth).count k ≤ 1 ∧
        (traceDownstreamLog st symbol maxDepth).count k ≤ 1) ∧
      (traceUpstreamLog st symbol maxDepth).count (symbol, loc.file_path) ≤ 2 ∧
      (traceDownstreamLog st symbol maxDepth).count (symbol, loc.file_path) ≤ 2) ∧
    (∀ (loc : CodeLocation) (rest : List CodeLocation),
      assocFind st.symbol_index symbol = some (loc :: rest) →
      ∀ fuel : Nat, bfsFuel st.analysis ≤ fuel →
        bfsAux (findCallees st.analysis) maxDepth fuel
          [⟨symbol, [{ symbol_name := symbol, file_path := loc.file_path,
                       line_number := loc.line_start, symbol_type := loc.symbol_type,
                       depth := 0 }], 0⟩] [] [] [(symbol, loc.file_path)] =
          traceBfs st.analysis (findCallees st.analysis) symbol loc maxDepth) := by
  refine ⟨?_, ?_, ?_, ?_⟩
  · cases hfind : assocFind st.symbol_index symbol with
    | none => simp [traceUpstream, hfind]
    | some l =>
      cases l with
      | nil => simp [traceUpstream, hfind]
      | cons loc rest2 =>
        simp only [traceUpstream, hfind]
        exact List.length_take_le 10 _
  · cases hfind : assocFind st.symbol_index symbol with
    | none => simp [traceDownstream, hfind]
    | some l =>
      cases l with
      | nil => simp [traceDownstream, hfind]
      | cons loc rest2 =>
        simp only [traceDownstream, hfind]
        exact List.length_take_le 10 _
  · intro loc rest hl
    obtain ⟨tU, hUeq, hUN⟩ :=
      traceBfs_log_nodup st.analysis (findCallers st.analysis) symbol loc maxDepth
    obtain ⟨tD, hDeq, hDN⟩ :=
      traceBfs_log_nodup st.analysis (findCallees st.analysis) symbol loc maxDepth
    have hUlog : traceUpstreamLog st symbol maxDepth = (symbol, loc.file_path) :: tU := by
      simp only [traceUpstreamLog, hl]
      exact hUeq
    have hDlog : traceDownstreamLog st symbol maxDepth = (symbol, loc.file_path) :: tD := by
      simp only [traceDownstreamLog, hl]
      exact hDeq
    have hu := log_count_of_nodup_tail hUlog hUN
    have hd := log_count_of_nodup_tail hDlog hDN
    exact ⟨fun k hk => ⟨hu.1 k hk, hd.1 k hk⟩, hu.2, hd.2⟩
  · intro loc rest hl fuel hfuel
    have hnb : ∀ (s : String) (loc' : CodeLocation), loc' ∈ findCallees st.analysis s →
        (loc'.symbol_name, loc'.file_path) ∈ allKeys st.analysis :=
      fun s loc' h => findCallees_keys h
    have hrem : remaining (allKeys st.analysis) [] = (allKeys st.analysis).length :=
      remaining_nil_visited _
    have hbound : bfsFuel st.analysis = 2 * (allKeys st.analysis).length + 2 := rfl
    simp only [traceBfs]
    apply bfsAux_fuel_irrelevant (findCallees st.analysis) maxDepth (allKeys st.analysis) hnb
      fuel (bfsFuel st.analysis)
    · simp only [List.length_cons, List.length_nil]
      omega
    · simp only [List.length_cons, List.length_nil]
      omega

/-- Cyclic snapshot for claim C6: A in a.py calls B in b.py, and B calls A
back (each edge recorded in the caller's file). -/
def cycSnapshot : AnalysisResult :=
  { files :=
    [ { path := "a.py",
        symbols := [{ id := 1, name := "A", symbol_type := "function",
                      line_start := 1, line_end := 2 }],
        dependencies := [],
        function_dependencies := [{ from_symbol := 1, to_symbol := 2 }] },
      { path := "b.py",
        symbols := [{ id := 2, name := "B", symbol_type := "function",
                      line_start := 1, line_end := 2 }],
        dependencies := [],
        function_dependencies := [{ from_symbol := 2, to_symbol := 1 }] } ] }

/-- Agent state built from the cyclic snapshot. -/
def cycAgent : AgentState := initAgent cycSnapshot

/-- C6 counterexample: on the cycle A→B→A the traced target's own pair
(A, a.py) enters the BFS queue twice — once as the seed and once when the
cycle returns to it, since the seed is not pre-marked visited — so the claim's
"no (symbol, file) pair is enqueued twice within a single traversal" is false;
the trace nevertheless terminates (here with an empty path list, the cyclic
path being dropped when all callees are already visited). -/
theorem C6_counterexample :
    (traceDownstreamLog cycAgent "A" 5).count ("A", "a.py") = 2 ∧
    traceDownstream cycAgent "A" 5 = [] := by decide

/-- Witness instantiating C6_amended on the cyclic snapshot. -/
theorem C6_witness :
    (traceDownstream cycAgent "A" 5).length ≤ 10 ∧
    (traceDownstreamLog cycAgent "A" 5).count ("B", "b.py") ≤ 1 ∧
    (traceDownstreamLog cycAgent "A" 5).count ("A", "a.py") ≤ 2 := by
  have h := C6_amended cycAgent "A" 5
  have hloc := h.2.2.1
    { file_path := "a.py", symbol_name := "A", symbol_type := "function",
      line_start := 1, line_end := 2 } [] (by decide)
  exact ⟨h.2.1, (hloc.1 ("B", "b.py") (by decide)).2, hloc.2.2⟩

/-! ## Filesystem model used by the context manager -/

/-- The repository filesystem seen by the context manager: file contents as
line lists (for _read_code_range) and existence checks (for
_find_affected_tests).  Read errors are not modelled. -/
structure Fs where
  lines : String → List String
  fileExists : String → Bool

/-- Filesystem with no readable files, for witnesses where contents are
irrelevant. -/
def emptyFs : Fs :=
  { lines := fun _ => [], fileExists := fun _ => false }

/-- ContextManager._read_code_range: 1-based inclusive slice, joined as is
(the stored lines are assumed to carry their newlines, as readlines does). -/
def readCodeRange (fs : Fs) (file_path : String) (start_line end_line : Nat) : String :=
  joinSep "" (((fs.lines file_path).drop (start_line - 1)).take (end_line - (start_line - 1)))

/-! ## locate_implementation (ai/enhanced_agent.py), in state-passing style -/

/-- The relevance accumulated by locate_implementation: how many query
keywords occur as substrings of the lower-cased symbol name. -/
def keywordRelevance (keywords : List String) (symbolName : String) : Nat :=
  keywords.foldl (fun acc kw => if substrOf kw (pyLower symbolName) then acc + 1 else acc) 0

/-- EnhancedCodebaseAgent.locate_implementation.  For every index bucket whose
name matches at least one keyword, the loop overwrites relevance_score on the
stored CodeLocation objects (the returned list aliases the index entries),
then stable-sorts by relevance descending and keeps the top 10.  Returned in
state-passing style: the second component is the agent state whose symbol
index carries the overwritten scores. -/
def locateImplementation (st : AgentState) (feature_description : String) :
    List CodeLocation × AgentState :=
  let keywords := pyWords (pyLower feature_description)
  let stepped := st.symbol_index.map (fun p =>
    let rel := keywordRelevance keywords p.1
    if 0 < rel then
      let locs2 := p.2.map (fun loc =>
        { loc with relevance_score := (rel : ℚ) / (keywords.length : ℚ) })
      ((p.1, locs2), locs2)
    else (p, []))
  let locations := stepped.flatMap (fun q => q.2)
  ((sortDesc (fun loc => loc.relevance_score) locations).take 10,
   { st with symbol_index := stepped.map (fun q => q.1) })

/-- EnhancedCodebaseAgent.find_similar_patterns is locate_implementation. -/
def findSimilarPatternsAgent (st : AgentState) (pattern_query : String) :
    List CodeLocation × AgentState :=
  locateImplementation st pattern_query

/-! ## Context manager data model (agent/context_manager.py) -/

/-- ContextLayer enum. -/
inductive ContextLayer
  | core
  | dependencies
  | call_chain
  | patterns
deriving Repr, DecidableEq

/-- The fixed per-layer token costs of ContextManager._token_estimates. -/
def tokenEstimate : ContextLayer → Int
  | .core => 1000
  | .dependencies => 2000
  | .call_chain => 3000
  | .patterns => 4000

/-- CodeChange dataclass. -/
structure CodeChange where
  target_symbol : String
  target_file : String
  change_type : String
  description : String
  line_range : Nat × Nat
deriving Repr, DecidableEq

/-- ImpactAnalysis dataclass. -/
structure ImpactAnalysis where
  change : CodeChange
  direct_callers : List CodeLocation := []
  indirect_callers : List CodeLocation := []
  affected_tests : List String := []
  risk_level : String := "low"
  breaking_changes : List String := []
  migration_notes : List String := []
deriving Repr, DecidableEq

/-- The target_code dict built by _get_target_code. -/
structure TargetCode where
  symbol : String
  file : String
  type : String
  line_range : Nat × Nat
  signature : Option String
  docstring : Option String
  code : String
deriving Repr, DecidableEq

/-- One dependency entry of _get_direct_dependencies. -/
structure DepEntry where
  name : String
  file : String
  type : String
  line : Nat
  signature : Option String
deriving Repr, DecidableEq

/-- One upstream/downstream node entry of _get_call_chain_context. -/
structure ChainEntry where
  symbol : String
  file : String
  line : Nat
  depth : Nat
deriving Repr, DecidableEq

/-- One entry-point record of _get_call_chain_context. -/
structure EntryPointEntry where
  symbol : String
  file : String
  line : Nat
deriving Repr, DecidableEq

/-- The call_chain dict of _get_call_chain_context. -/
structure CallChainCtx where
  upstream : List ChainEntry
  downstream : List ChainEntry
  entry_points : List EntryPointEntry
deriving Repr, DecidableEq

/-- One similar-pattern entry of _find_similar_patterns. -/
structure PatternEntry where
  symbol : String
  file : String
  type : String
  line : Nat
  signature : Option String
  relevance : ℚ
deriving Repr, DecidableEq

/-- PreciseContext dataclass; target_code is none exactly when the Python
dict is empty; impact_analysis is never filled by extract_precise_context. -/
structure PreciseContext where
  target_code : Option TargetCode := none
  direct_dependencies : List DepEntry := []
  call_chain : Option CallChainCtx := none
  similar_patterns : List PatternEntry := []
  impact_analysis : Option ImpactAnalysis := none
  token_estimate : Int := 0
  layers_included : List ContextLayer := []
deriving Repr, DecidableEq

/-! ## Context manager helpers -/

/-- ContextManager._get_target_code: none when the symbol is missing (the
source returns an empty, falsy dict). -/
def getTargetCode (fs : Fs) (st : AgentState) (symbol : String) : Option TargetCode :=
  match assocFind st.symbol_index symbol with
  | none => none
  | some [] => none
  | some (location :: _) =>
    some { symbol := symbol, file := location.file_path, type := location.symbol_type,
           line_range := (location.line_start, location.line_end),
           signature := location.signature, docstring := location.docstring,
           code := readCodeRange fs location.file_path location.line_start location.line_end }

/-- ContextManager._get_direct_dependencies: the first five callees. -/
def getDirectDependencies (st : AgentState) (symbol : String) : List DepEntry :=
  ((findCallees st.analysis symbol).take 5).map (fun callee =>
    { name := callee.symbol_name, file := callee.file_path, type := callee.symbol_type,
      line := callee.line_start, signature := callee.signature })

/-- ContextManager._get_call_chain_context: both directions at the given
depth, first three paths each (skipping the target node), first three entry
points. -/
def getCallChainContext (st : AgentState) (symbol : String) (depth : Nat) : CallChainCtx :=
  let cc := getCallChain st symbol "both" depth
  { upstream := (cc.upstream.take 3).flatMap (fun path => (path.drop 1).map (fun node =>
      { symbol := node.symbol_name, file := node.file_path, line := node.line_number,
        depth := node.depth })),
    downstream := (cc.downstream.take 3).flatMap (fun path => (path.drop 1).map (fun node =>
      { symbol := node.symbol_name, file := node.file_path, line := node.line_number,
        depth := node.depth })),
    entry_points := (cc.entry_points.take 3).map (fun ep =>
      { symbol := ep.symbol_name, file := ep.file_path, line := ep.line_number }) }

/-- ContextManager._find_similar_patterns: delegates to the agent's
find_similar_patterns (hence to locate_implementation, which overwrites
relevance scores), keeping the first limit entries. -/
def findSimilarPatternsCM (st : AgentState) (symbol : String) (limit : Nat) :
    List PatternEntry × AgentState :=
  let r := findSimilarPatternsAgent st symbol
  ((r.1.take limit).map (fun loc =>
    { symbol := loc.symbol_name, file := loc.file_path, type := loc.symbol_type,
      line := loc.line_start, signature := loc.signature,
      relevance := loc.relevance_score }), r.2)

/-- ContextManager.extract_precise_context: walk the ordered layer list; every
layer, including PATTERNS, is included only when its full fixed cost fits the
remaining budget (each condition below repeats the source's sequential-if
guard verbatim); the PATTERNS layer adds min(remaining, cost) to the token
estimate and runs the (index-mutating) pattern search.  task_type is accepted
but unused, as in the source. -/
def extractPreciseContext (fs : Fs) (st : AgentState) (target : String)
    (token_budget : Int) (task_type : String) : PreciseContext × AgentState :=
  match getTargetCode fs st target with
  | none => ({ target_code := none }, st)
  | some tc =>
    let rb1 : Int := token_budget - tokenEstimate ContextLayer.core
    let te1 : Int := tokenEstimate ContextLayer.core
    let dd := if rb1 ≥ tokenEstimate ContextLayer.dependencies
      then getDirectDependencies st target else []
    let li2 := if rb1 ≥ tokenEstimate ContextLayer.dependencies
      then [ContextLayer.core, ContextLayer.dependencies] else [ContextLayer.core]
    let rb2 := if rb1 ≥ tokenEstimate ContextLayer.dependencies
      then rb1 - tokenEstimate ContextLayer.dependencies else rb1
    let te2 := if rb1 ≥ tokenEstimate ContextLayer.dependencies
      then te1 + tokenEstimate ContextLayer.dependencies else te1
    let cc := if rb2 ≥ tokenEstimate ContextLayer.call_chain
      then some (getCallChainContext st target 2) else none
    let li3 := if rb2 ≥ tokenEstimate ContextLayer.call_chain
      then li2 ++ [ContextLayer.call_chain] else li2
    let rb3 := if rb2 ≥ tokenEstimate ContextLayer.call_chain
      then rb2 - tokenEstimate ContextLayer.call_chain else rb2
    let te3 := if rb2 ≥ tokenEstimate ContextLayer.call_chain
      then te2 + tokenEstimate ContextLayer.call_chain else te2
    let patRun := findSimilarPatternsCM st target 3
    let sp := if rb3 ≥ tokenEstimate ContextLayer.patterns then patRun.1 else []
    let st2 := if rb3 ≥ tokenEstimate ContextLayer.patterns then patRun.2 else st
    let li4 := if rb3 ≥ tokenEstimate ContextLayer.patterns
      then li3 ++ [ContextLayer.patterns] else li3
    let te4 := if rb3 ≥ tokenEstimate ContextLayer.patterns
      then te3 + min rb3 (tokenEstimate ContextLayer.patterns) else te3
    ({ target_code := some tc, direct_dependencies := dd, call_chain := cc,
       similar_patterns := sp, token_estimate := te4, layers_included := li4 }, st2)

/-! ## filter_and_denoise (agent/context_manager.py) -/

/-- ContextManager._is_test_file. -/
def isTestFile (file_path : String) : Bool :=
  let fl := pyLower file_path
  substrOf "test" fl || pyStartsWith fl "tests/" || substrOf "/tests/" fl

/-- ContextManager._get_layer: first matching path-substring rule (note: no
"route" rule here, unlike _detect_layers in the agent). -/
def getLayer (file_path : String) : String :=
  let fl := pyLower file_path
  if substrOf "domain" fl || substrOf "model" fl then "domain"
  else if substrOf "application" fl || substrOf "service" fl then "application"
  else if substrOf "adapter" fl || substrOf "infrastructure" fl then "infrastructure"
  else if substrOf "api" fl || substrOf "controller" fl then "api"
  else if substrOf "cli" fl then "cli"
  else "other"

/-- One search-result dict consumed by filter_and_denoise (the keys it reads). -/
structure SearchResult where
  file : Option String := none
  similarity : Option ℚ := none
deriving Repr, DecidableEq

/-- The filters dict of filter_and_denoise; none models an absent key. -/
structure FilterOptions where
  exclude_tests : Option Bool := none
  min_similarity : Option ℚ := none
  same_layer_only : Option Bool := none
  target : Option String := none
  limit : Option Int := none
deriving Repr, DecidableEq

/-- ContextManager.filter_and_denoise, axes in source order: exclude_tests
(defaulting to True when absent), min_similarity, same_layer_only with target,
limit. -/
def filterAndDenoise (results : List SearchResult) (filters : FilterOptions) :
    List SearchResult :=
  let f1 := if filters.exclude_tests.getD true then
      results.filter (fun r => !isTestFile (r.file.getD "")) else results
  let f2 := match filters.min_similarity with
    | some minCut => f1.filter (fun r => decide (minCut ≤ r.similarity.getD 0))
    | none => f1
  let f3 := if filters.same_layer_only.getD false then
      match filters.target with
      | some tgt => f2.filter (fun r => getLayer (r.file.getD "") == getLayer tgt)
      | none => f2
    else f2
  match filters.limit with
  | some n => pySlice n f3
  | none => f3

/-! ## Claim C4 -/

/-- C4 counterexample: with an empty filters dict (exclude_tests absent) a
test-file result is still removed, because the source reads
filters.get("exclude_tests", True) — the default is True, not no-op. -/
theorem C4_counterexample :
    filterAndDenoise [{ file := some "tests/test_module.py" }] {} = [] := by decide

/-- C4 amended: min_similarity, same_layer_only and limit are each optional
with absence meaning no filtering on that axis, but exclude_tests defaults to
True when absent: the empty filters dict still removes test files, and only an
explicit exclude_tests = False disables that axis (making empty the whole
filter a no-op). -/
theorem C4_amended (results : List SearchResult) :
    filterAndDenoise results {} =
      results.filter (fun r => !isTestFile (r.file.getD "")) ∧
    filterAndDenoise results { exclude_tests := some false } = results := by
  constructor
  · rfl
  · rfl

/-! ## Claims C2 and C5 -/

/-- Closed form of the layer list produced by extract_precise_context: CORE
whenever the target resolves, then each further layer exactly when the whole
budget covers the summed costs so far (3000, 6000, 10000). -/
theorem extract_layers_closed_form (fs : Fs) (st : AgentState) (target : String)
    (b : Int) (task_type : String) :
    (extractPreciseContext fs st target b task_type).1.layers_included =
      (match getTargetCode fs st target with
       | none => []
       | some _ =>
         ContextLayer.core ::
           (if b ≥ 3000 then
             ContextLayer.dependencies ::
               (if b ≥ 6000 then
                 ContextLayer.call_chain ::
                   (if b ≥ 10000 then [ContextLayer.patterns] else [])
               else [])
           else [])) := by
  cases htc : getTargetCode fs st target with
  | none => simp [extractPreciseContext, htc]
  | some tc =>
    simp only [extractPreciseContext, htc, tokenEstimate]
    split_ifs <;> first | rfl | (exfalso; omega)

/-- Token estimate of extract_precise_context when the PATTERNS layer made it
in: the min(remaining, 4000) charge always equals the full 4000. -/
theorem extract_token_estimate_patterns (fs : Fs) (st : AgentState) (target : String)
    (b : Int) (task_type : String)
    (hmem : ContextLayer.patterns ∈
      (extractPreciseContext fs st target b task_type).1.layers_included) :
    (extractPreciseContext fs st target b task_type).1.token_estimate = 10000 ∧
    min (b - 6000) 4000 = 4000 := by
  have hcf := extract_layers_closed_form fs st target b task_type
  rw [hcf] at hmem
  cases htc : getTargetCode fs st target with
  | none =>
    rw [htc] at hmem
    simp at hmem
  | some tc =>
    rw [htc] at hmem
    simp only at hmem
    by_cases h2 : b ≥ 3000
    · rw [if_pos h2] at hmem
      by_cases h3 : b ≥ 6000
      · rw [if_pos h3] at hmem
        by_cases h4 : b ≥ 10000
        · constructor
          · have e2 : b - 1000 ≥ 2000 := by omega
            have e3 : b - 1000 - 2000 ≥ 3000 := by omega
            have e4 : b - 1000 - 2000 - 3000 ≥ 4000 := by omega
            simp only [extractPreciseContext, htc, tokenEstimate, if_pos e2, if_pos e3,
              if_pos e4]
            omega
          · omega
        · rw [if_neg h4] at hmem
          simp at hmem
      · rw [if_neg h3] at hmem
        simp at hmem
    · rw [if_neg h2] at hmem
      simp at hmem

/-- One-symbol snapshot used by the context-manager claims. -/
def tinySnapshot : AnalysisResult :=
  { files :=
    [ { path := "m.py",
        symbols := [{ id := 1, name := "foo", symbol_type := "function",
                      line_start := 1, line_end := 3 }],
        dependencies := [],
        function_dependencies := [] } ] }

/-- Agent state built from the one-symbol snapshot. -/
def tinyAgent : AgentState := initAgent tinySnapshot

/-- C2 counterexample: at budget 6001 the remainder after CORE, DEPENDENCIES
and CALL_CHAIN is 1 > 0, yet PATTERNS is NOT included — the source guards
PATTERNS with the same full-cost test (remaining >= 4000) as every other
layer, contradicting the claim that any positive remainder admits it. -/
theorem C2_counterexample :
    (extractPreciseContext emptyFs tinyAgent "foo" 6001 "general").1.layers_included =
      [ContextLayer.core, ContextLayer.dependencies, ContextLayer.call_chain] ∧
    ContextLayer.patterns ∉
      (extractPreciseContext emptyFs tinyAgent "foo" 6001 "general").1.layers_included := by
  decide

/-- C2 amended: every layer, PATTERNS included, is admitted exactly when its
full fixed cost fits the budget remaining after its predecessors (CORE is
unconditional once the target resolves); when PATTERNS is admitted, its
min(remaining, 4000) charge always equals the full 4000, for a 10000 total. -/
theorem C2_amended (fs : Fs) (st : AgentState) (target : String) (b : Int)
    (task_type : String) :
    ((extractPreciseContext fs st target b task_type).1.layers_included =
      (match getTargetCode fs st target with
       | none => []
       | some _ =>
         ContextLayer.core ::
           (if b ≥ 3000 then
             ContextLayer.dependencies ::
               (if b ≥ 6000 then
                 ContextLayer.call_chain ::
                   (if b ≥ 10000 then [ContextLayer.patterns] else [])
               else [])
           else []))) ∧
    (ContextLayer.patterns ∈
        (extractPreciseContext fs st target b task_type).1.layers_included →
      (extractPreciseContext fs st target b task_type).1.token_estimate = 10000 ∧
      min (b - 6000) 4000 = 4000) :=
  ⟨extract_layers_closed_form fs st target b task_type,
   fun hmem => extract_token_estimate_patterns fs st target b task_type hmem⟩

/-- Witness instantiating C2_amended at a concrete budget with PATTERNS. -/
theorem C2_witness :
    (extractPreciseContext emptyFs tinyAgent "foo" 10000 "general").1.token_estimate = 10000 ∧
    min ((10000 : Int) - 6000) 4000 = 4000 :=
  (C2_amended emptyFs tinyAgent "foo" 10000 "general").2 (by decide)

/-- C5: for budget1 < budget2 the included layers at budget1 are a prefix of
those at budget2, and every layer list is a prefix of the full ordered list
[CORE, DEPENDENCIES, CALL_CHAIN, PATTERNS]. -/
theorem C5_layer_monotonicity (fs : Fs) (st : AgentState) (target : String)
    (b1 b2 : Int) (task_type : String) (h : b1 < b2) :
    (∃ tl, (extractPreciseContext fs st target b1 task_type).1.layers_included ++ tl =
        (extractPreciseContext fs st target b2 task_type).1.layers_included) ∧
    (∃ tl, (extractPreciseContext fs st target b1 task_type).1.layers_included ++ tl =
        [ContextLayer.core, ContextLayer.dependencies, ContextLayer.call_chain,
         ContextLayer.patterns]) := by
  rw [extract_layers_closed_form, extract_layers_closed_form]
  cases htc : getTargetCode fs st target with
  | none =>
    refine ⟨⟨[], rfl⟩, ?_⟩
    exact ⟨[ContextLayer.core, ContextLayer.dependencies, ContextLayer.call_chain,
            ContextLayer.patterns], rfl⟩
  | some tc =>
    constructor
    · split_ifs <;> first | exact ⟨_, rfl⟩ | (exfalso; omega)
    · split_ifs <;> exact ⟨_, rfl⟩

/-- Witness instantiating C5_layer_monotonicity at budgets 2000 < 10000. -/
theorem C5_witness :
    (∃ tl, (extractPreciseContext emptyFs tinyAgent "foo" 2000 "general").1.layers_included
        ++ tl =
        (extractPreciseContext emptyFs tinyAgent "foo" 10000 "general").1.layers_included) ∧
    (∃ tl, (extractPreciseContext emptyFs tinyAgent "foo" 2000 "general").1.layers_included
        ++ tl =
        [ContextLayer.core, ContextLayer.dependencies, ContextLayer.call_chain,
         ContextLayer.patterns]) :=
  C5_layer_monotonicity emptyFs tinyAgent "foo" 2000 10000 "general" (by decide)

/-! ## Claim C3 -/

/-- Field-wise equality of CodeLocation up to relevance_score. -/
def locEqModRel (a b : CodeLocation) : Prop :=
  a.file_path = b.file_path ∧ a.symbol_name = b.symbol_name ∧
  a.symbol_type = b.symbol_type ∧ a.line_start = b.line_start ∧
  a.line_end = b.line_end ∧ a.signature = b.signature ∧ a.docstring = b.docstring

/-- Two symbol indexes agree on keys, bucket sizes, and every location field
except possibly relevance_score. -/
def indexModRel (idx1 idx2 : List (String × List CodeLocation)) : Prop :=
  List.Forall₂ (fun p q => p.1 = q.1 ∧ List.Forall₂ locEqModRel p.2 q.2) idx1 idx2

theorem locEqModRel_refl (loc : CodeLocation) : locEqModRel loc loc :=
  ⟨rfl, rfl, rfl, rfl, rfl, rfl, rfl⟩

theorem indexModRel_refl (idx : List (String × List CodeLocation)) : indexModRel idx idx :=
  List.forall₂_same.mpr (fun p _ =>
    ⟨rfl, List.forall₂_same.mpr (fun loc _ => locEqModRel_refl loc)⟩)

/-- locate_implementation keeps the analysis snapshot, both dependency graphs
and the index structure; it touches only relevance_score fields. -/
theorem locate_state_mod_rel (st : AgentState) (q : String) :
    (locateImplementation st q).2.analysis = st.analysis ∧
    (locateImplementation st q).2.dependency_graph = st.dependency_graph ∧
    (locateImplementation st q).2.reverse_dependency_graph = st.reverse_dependency_graph ∧
    indexModRel st.symbol_index (locateImplementation st q).2.symbol_index := by
  refine ⟨rfl, rfl, rfl, ?_⟩
  simp only [locateImplementation, indexModRel, List.map_map]

  rw [List.forall₂_map_right_iff]
  apply List.forall₂_same.mpr
  intro p _
  by_cases hrel : 0 < keywordRelevance (pyWords (pyLower q)) p.1
  · simp only [Function.comp, if_pos hrel]
    refine ⟨by trivial, ?_⟩
    rw [List.forall₂_map_right_iff]
    exact List.forall₂_same.mpr (fun loc _ => locEqModRel_refl loc)
  · simp only [Function.comp, if_neg hrel]
    exact ⟨by trivial, List.forall₂_same.mpr (fun loc _ => locEqModRel_refl loc)⟩

/-- extract_precise_context mutates the state only through the PATTERNS-layer
pattern search, which is locate_implementation. -/
theorem extract_state_mod_rel (fs : Fs) (st : AgentState) (target : String) (b : Int)
    (task_type : String) :
    (extractPreciseContext fs st target b task_type).2.analysis = st.analysis ∧
    (extractPreciseContext fs st target b task_type).2.dependency_graph =
      st.dependency_graph ∧
    (extractPreciseContext fs st target b task_type).2.reverse_dependency_graph =
      st.reverse_dependency_graph ∧
    indexModRel st.symbol_index
      (extractPreciseContext fs st target b task_type).2.symbol_index := by
  have hmut := locate_state_mod_rel st target
  cases htc : getTargetCode fs st target with
  | none =>
    simp only [extractPreciseContext, htc]
    exact ⟨by trivial, by trivial, by trivial, indexModRel_refl _⟩
  | some tc =>
    simp only [extractPreciseContext, htc]
    split_ifs <;>
      first
        | exact ⟨by trivial, by trivial, by trivial, indexModRel_refl _⟩
        | exact ⟨hmut.1, hmut.2.1, hmut.2.2.1, hmut.2.2.2⟩

/-- C3 counterexample: locate_implementation("foo bar") overwrites the
relevance_score stored in the index (1 becomes 1/2), so the symbol index is
not equal before and after the query. -/
theorem C3_counterexample :
    (locateImplementation tinyAgent "foo bar").2.symbol_index ≠ tinyAgent.symbol_index := by
  intro heq
  have hval : (locateImplementation tinyAgent "foo bar").2.symbol_index =
      [("foo", [{ file_path := "m.py", symbol_name := "foo", symbol_type := "function",
                  line_start := 1, line_end := 3, signature := none, docstring := none,
                  relevance_score := ((1 : Nat) : ℚ) / ((2 : Nat) : ℚ) }])] := rfl
  have hold : tinyAgent.symbol_index =
      [("foo", [{ file_path := "m.py", symbol_name := "foo", symbol_type := "function",
                  line_start := 1, line_end := 3, signature := none, docstring := none,
                  relevance_score := (1 : ℚ) }])] := rfl
  rw [hval, hold] at heq
  simp only [List.cons.injEq, Prod.mk.injEq, CodeLocation.mk.injEq, and_true, true_and] at heq
  norm_num at heq

/-- C3 amended: get_call_chain, understand_architecture and analyze_impact
perform no writes (they are embedded as pure functions of the built state);
locate_implementation, find_similar_patterns (an alias of it) and
extract_precise_context (through its PATTERNS layer) leave the analysis
snapshot, both dependency graphs, the index keys and every CodeLocation field
except relevance_score unchanged — relevance_score of stored locations is the
only state a query can overwrite. -/
theorem C3_amended (st : AgentState) (q : String) (fs : Fs) (target : String) (b : Int)
    (task_type : String) :
    ((locateImplementation st q).2.analysis = st.analysis ∧
     (locateImplementation st q).2.dependency_graph = st.dependency_graph ∧
     (locateImplementation st q).2.reverse_dependency_graph =
       st.reverse_dependency_graph ∧
     indexModRel st.symbol_index (locateImplementation st q).2.symbol_index) ∧
    findSimilarPatternsAgent st q = locateImplementation st q ∧
    ((extractPreciseContext fs st target b task_type).2.analysis = st.analysis ∧
     (extractPreciseContext fs st target b task_type).2.dependency_graph =
       st.dependency_graph ∧
     (extractPreciseContext fs st target b task_type).2.reverse_dependency_graph =
       st.reverse_dependency_graph ∧
     indexModRel st.symbol_index
       (extractPreciseContext fs st target b task_type).2.symbol_index) :=
  ⟨locate_state_mod_rel st q, rfl, extract_state_mod_rel fs st target b task_type⟩

/-! ## rank_context_relevance (agent/context_manager.py) -/

/-- One dependency record inside a context dict (its "name" key). -/
structure DepRec where
  name : Option String := none
deriving Repr, DecidableEq

/-- One node record inside a context dict call chain (its "symbol" key). -/
structure NodeRec where
  symbol : Option String := none
deriving Repr, DecidableEq

/-- The call_chain value inside a context dict; a present-but-empty dict is
falsy in the source and equivalent to an absent one. -/
structure CtxChain where
  upstream : List NodeRec := []
  downstream : List NodeRec := []
deriving Repr, DecidableEq

/-- A context dict as consumed by the ranking helpers: exactly the keys they
read; none models an absent key. -/
structure CtxDict where
  symbol : Option String := none
  docstring : Option String := none
  signature : Option String := none
  dependencies : List DepRec := []
  call_chain : Option CtxChain := none
deriving Repr, DecidableEq

/-- ContextManager._semantic_similarity.  Returns none on the source's
ZeroDivisionError path: a nonempty whitespace-only task (no keywords) with a
nonempty context word set divides by len(task_keywords) = 0. -/
def semanticSimilarity (context : CtxDict) (task : String) : Option ℚ :=
  if task = "" then some (1/2 : ℚ)
  else
    let task_keywords := (pyWords (pyLower task)).dedup
    let context_text :=
      (match context.symbol with
       | some s => pyLower s ++ " "
       | none => "") ++
      (match context.docstring with
       | some d => if d ≠ "" then pyLower d ++ " " else ""
       | none => "") ++
      (match context.signature with
       | some sg => if sg ≠ "" then pyLower sg ++ " " else ""
       | none => "")
    let context_words := (pyWords context_text).dedup
    if context_words = [] then some 0
    else if task_keywords = [] then none
    else
      let overlap := (task_keywords.filter (fun w => w ∈ context_words)).length
      some (min 1 ((overlap : ℚ) / (task_keywords.length : ℚ)))

/-- ContextManager._dependency_strength. -/
def dependencyStrength (context : CtxDict) (target : String) : ℚ :=
  if context.symbol = some target then 1
  else if context.dependencies.any (fun d => d.name == some target) then 4/5
  else
    match context.call_chain with
    | some cc =>
      if (cc.upstream ++ cc.downstream).any (fun n => n.symbol == some target) then 1/2
      else 1/10
    | none => 1/10

/-- ContextManager._code_quality. -/
def codeQuality (context : CtxDict) : ℚ :=
  let base : ℚ := 1/2
  let s1 := if context.docstring.getD "" ≠ "" then base + 1/5 else base
  let sig := context.signature.getD ""
  let s2 := if substrOf "->" sig || substrOf ":" sig then s1 + 1/5 else s1
  let sym := context.symbol.getD ""
  let s3 := if 3 < sym.length ∧ pyStartsWith sym "_" = false then s2 + 1/10 else s2
  min 1 s3

/-- The 0.5/0.3/0.2-weighted total score of rank_context_relevance (the getD 0
is never taken when semantic scoring succeeds). -/
def totalScore (ctx : CtxDict) (task target : String) : ℚ :=
  1/2 * (semanticSimilarity ctx task).getD 0 + 3/10 * dependencyStrength ctx target +
    1/5 * codeQuality ctx

/-- The scoring loop of rank_context_relevance: one (context, score) pair per
context, aborting (none) if semantic scoring raises. -/
def scoreAll (task target : String) : List CtxDict → Option (List (CtxDict × ℚ))
  | [] => some []
  | ctx :: rest =>
    match semanticSimilarity ctx task with
    | none => none
    | some s =>
      match scoreAll task target rest with
      | none => none
      | some tl =>
        some ((ctx, (1/2 : ℚ) * s + (3/10 : ℚ) * dependencyStrength ctx target +
          (1/5 : ℚ) * codeQuality ctx) :: tl)

/-- ContextManager.rank_context_relevance: score every context, then Python's
stable sorted(..., reverse=True) by score. -/
def rankContextRelevance (contexts : List CtxDict) (task target : String) :
    Option (List (CtxDict × ℚ)) :=
  match scoreAll task target contexts with
  | none => none
  | some scores => some (sortDesc (fun p => p.2) scores)

/-! Stable-sort lemmas for sortDesc. -/

theorem insertDesc_perm {α : Type} (f : α → ℚ) (a : α) (l : List α) :
    List.Perm (insertDesc f a l) (a :: l) := by
  induction l with
  | nil => exact List.Perm.refl _
  | cons b t ih =>
    by_cases h : f b ≤ f a
    · simp only [insertDesc, if_pos h]
      exact List.Perm.refl _
    · simp only [insertDesc, if_neg h]
      exact List.Perm.trans (List.Perm.cons b ih) (List.Perm.swap a b t)

theorem sortDesc_perm {α : Type} (f : α → ℚ) (l : List α) :
    List.Perm (sortDesc f l) l := by
  induction l with
  | nil => exact List.Perm.refl _
  | cons a t ih =>
    exact List.Perm.trans (insertDesc_perm f a (sortDesc f t)) (List.Perm.cons a ih)

theorem pairwise_insertDesc {α : Type} (f : α → ℚ) (a : α) (l : List α)
    (h : l.Pairwise (fun x y => f y ≤ f x)) :
    (insertDesc f a l).Pairwise (fun x y => f y ≤ f x) := by
  induction l with
  | nil => simp [insertDesc]
  | cons b t ih =>
    rcases List.pairwise_cons.mp h with ⟨hb, ht⟩
    by_cases hba : f b ≤ f a
    · simp only [insertDesc, if_pos hba]
      refine List.pairwise_cons.mpr ⟨?_, h⟩
      intro c hc
      rcases List.mem_cons.mp hc with rfl | hc2
      · exact hba
      · exact le_trans (hb c hc2) hba
    · simp only [insertDesc, if_neg hba]
      refine List.pairwise_cons.mpr ⟨?_, ih ht⟩
      intro c hc
      rcases List.mem_cons.mp ((insertDesc_perm f a t).mem_iff.mp hc) with rfl | hct
      · exact le_of_not_le hba
      · exact hb c hct

theorem sortDesc_pairwise {α : Type} (f : α → ℚ) (l : List α) :
    (sortDesc f l).Pairwise (fun x y => f y ≤ f x) := by
  induction l with
  | nil => exact List.Pairwise.nil
  | cons a t ih => exact pairwise_insertDesc f a (sortDesc f t) ih

theorem filter_insertDesc {α : Type} (f : α → ℚ) (c : ℚ) (a : α) (l : List α) :
    (insertDesc f a l).filter (fun x => decide (f x = c)) =
      (if f a = c then a :: l.filter (fun x => decide (f x = c))
       else l.filter (fun x => decide (f x = c))) := by
  induction l with
  | nil =>
    simp only [insertDesc, List.filter]
    by_cases hac : f a = c <;> simp [hac]
  | cons b t ih =>
    by_cases hba : f b ≤ f a
    · simp only [insertDesc, if_pos hba]
      by_cases hac : f a = c <;> by_cases hbc : f b = c <;>
        simp [List.filter_cons, hac, hbc]
    · simp only [insertDesc, if_neg hba]
      by_cases hac : f a = c
      · have hbc : ¬ (f b = c) := by
          intro hbceq
          exact hba (le_of_eq (by rw [hbceq, hac]))
        simp [List.filter_cons, hbc, hac, ih]
      · simp [List.filter_cons, hac, ih]

theorem filter_sortDesc {α : Type} (f : α → ℚ) (c : ℚ) (l : List α) :
    (sortDesc f l).filter (fun x => decide (f x = c)) =
      l.filter (fun x => decide (f x = c)) := by
  induction l with
  | nil => rfl
  | cons a t ih =>
    simp only [sortDesc]
    rw [filter_insertDesc]
    by_cases hac : f a = c
    · rw [if_pos hac, ih]
      simp [List.filter_cons, hac]
    · rw [if_neg hac, ih]
      simp [List.filter_cons, hac]

/-! ## Claim C9 -/

theorem ite_isSome_of_ne {cw tkw : List String} {q : ℚ} (h : tkw ≠ []) :
    (if cw = [] then some (0 : ℚ) else if tkw = [] then none else some q).isSome = true := by
  by_cases h1 : cw = [] <;> simp [h1, h]

theorem semanticSimilarity_isSome {ctx : CtxDict} {task : String}
    (h : task = "" ∨ pyWords (pyLower task) ≠ []) :
    (semanticSimilarity ctx task).isSome = true := by
  by_cases ht : task = ""
  · simp [semanticSimilarity, ht]
  · have hkw : pyWords (pyLower task) ≠ [] := by
      rcases h with h | h
      · exact absurd h ht
      · exact h
    have hded : (pyWords (pyLower task)).dedup ≠ [] := by
      intro hnil
      exact hkw ((List.dedup_eq_nil _).mp hnil)
    simp only [semanticSimilarity, if_neg ht]
    exact ite_isSome_of_ne hded

theorem scoreAll_eq_map (task target : String) :
    ∀ contexts : List CtxDict,
      (∀ ctx ∈ contexts, (semanticSimilarity ctx task).isSome = true) →
      scoreAll task target contexts =
        some (contexts.map (fun ctx => (ctx, totalScore ctx task target))) := by
  intro contexts
  induction contexts with
  | nil => intro _; rfl
  | cons ctx rest ih =>
    intro h
    have hc := h ctx (List.mem_cons_self _ _)
    cases hs : semanticSimilarity ctx task with
    | none => rw [hs] at hc; cases hc
    | some s =>
      simp only [scoreAll, hs]
      rw [ih (fun c hcm => h c (List.mem_cons_of_mem _ hcm))]
      simp [totalScore, hs]

/-- C9 amended: whenever the task string is empty or contains at least one
non-whitespace keyword, rank_context_relevance returns the input contexts as
a permutation, each paired with the 0.5*semantic + 0.3*dependency +
0.2*quality score, sorted by score non-increasing, and entries with equal
scores keep their original input order (their filtered subsequence equals
that of the scored input); a nonempty whitespace-only task instead raises
ZeroDivisionError in the source (none in this embedding). -/
theorem C9_amended (contexts : List CtxDict) (task target : String)
    (h : task = "" ∨ pyWords (pyLower task) ≠ []) :
    ∃ ranked : List (CtxDict × ℚ),
      rankContextRelevance contexts task target = some ranked ∧
      List.Perm (ranked.map Prod.fst) contexts ∧
      ranked.Pairwise (fun p q => q.2 ≤ p.2) ∧
      (∀ p ∈ ranked, ∃ s : ℚ, semanticSimilarity p.1 task = some s ∧
        p.2 = 1/2 * s + 3/10 * dependencyStrength p.1 target + 1/5 * codeQuality p.1) ∧
      (∀ c : ℚ, ranked.filter (fun p => decide (p.2 = c)) =
        (contexts.map (fun ctx => (ctx, totalScore ctx task target))).filter
          (fun p => decide (p.2 = c))) := by
  have hall : ∀ ctx ∈ contexts, (semanticSimilarity ctx task).isSome = true :=
    fun ctx _ => semanticSimilarity_isSome h
  have hsc := scoreAll_eq_map task target contexts hall
  have hperm := sortDesc_perm (fun p : CtxDict × ℚ => p.2)
    (contexts.map (fun ctx => (ctx, totalScore ctx task target)))
  refine ⟨sortDesc (fun p => p.2)
    (contexts.map (fun ctx => (ctx, totalScore ctx task target))), ?_, ?_, ?_, ?_, ?_⟩
  · simp [rankContextRelevance, hsc]
  · have hm := hperm.map Prod.fst
    simpa [List.map_map, Function.comp_def, List.map_id'] using hm
  · exact sortDesc_pairwise _ _
  · intro p hp
    have hpmem := (hperm.mem_iff).mp hp
    obtain ⟨ctx, hcm, hpe⟩ := List.mem_map.mp hpmem
    have hsome := hall ctx hcm
    cases hs : semanticSimilarity ctx task with
    | none => rw [hs] at hsome; cases hsome
    | some s =>
      refine ⟨s, ?_, ?_⟩
      · rw [← hpe]
        exact hs
      · rw [← hpe]
        simp [totalScore, hs]
  · intro c
    exact filter_sortDesc _ c _

/-- C9 counterexample: a nonempty, all-whitespace task with a context that
has any words makes _semantic_similarity divide by len(task_keywords) = 0 —
rank_context_relevance raises instead of returning a ranking. -/
theorem C9_counterexample :
    rankContextRelevance [{ symbol := some "foo" }] " " "x" = none := by decide

/-- Witness instantiating C9_amended on a concrete context list and task. -/
theorem C9_witness :
    (rankContextRelevance [{ symbol := some "foo" }] "find foo" "foo").isSome = true := by
  obtain ⟨ranked, hrk, _⟩ :=
    C9_amended [{ symbol := some "foo" }] "find foo" "foo" (Or.inr (by decide))
  rw [hrk]
  rfl

/-! ## Architecture understanding (ai/enhanced_agent.py), pure reads -/

/-- ArchitectureMap dataclass. -/
structure ArchitectureMap where
  layers : List (String × List String)
  modules : List (String × List String)
  key_abstractions : List String
  design_patterns : List (String × List String)
  entry_points : List String
  core_components : List String
deriving Repr, DecidableEq

/-- defaultdict(int) increment by a summand. -/
def countAdd (m : List (String × Nat)) (k : String) (v : Nat) : List (String × Nat) :=
  match assocFind m k with
  | some n => assocSet m k (n + v)
  | none => m ++ [(k, v)]

/-- _detect_layers: first matching substring rule per file path (not
lower-cased in the source), buckets in first-touch order. -/
def detectLayers (g : AnalysisResult) : List (String × List String) :=
  g.files.foldl (fun layers fi =>
    let fp := fi.path
    if substrOf "domain" fp || substrOf "model" fp then bucketAppend layers "domain" fp
    else if substrOf "application" fp || substrOf "service" fp then
      bucketAppend layers "application" fp
    else if substrOf "adapter" fp || substrOf "infrastructure" fp then
      bucketAppend layers "infrastructure" fp
    else if substrOf "api" fp || substrOf "controller" fp || substrOf "route" fp then
      bucketAppend layers "api" fp
    else if substrOf "cli" fp || substrOf "command" fp then bucketAppend layers "cli" fp
    else bucketAppend layers "other" fp) []

/-- _detect_modules: group by first path segment when the path has a slash. -/
def detectModules (g : AnalysisResult) : List (String × List String) :=
  g.files.foldl (fun modules fi =>
    let parts := pySplitChar fi.path '/'
    if 1 < parts.length then bucketAppend modules (parts.headD "") fi.path else modules) []

/-- _extract_key_abstractions: count exported classes by name and keep the
top 10 names by count (Python's stable descending sort; the Nat count is cast
to ℚ only to reuse the sort). -/
def extractKeyAbstractions (g : AnalysisResult) : List String :=
  let class_references := g.files.foldl (fun m fi =>
    fi.symbols.foldl (fun m s =>
      if s.symbol_type == "class" && s.is_exported then countAdd m s.name 1 else m) m) []
  ((sortDesc (fun p => ((p.2 : Nat) : ℚ)) class_references).take 10).map (fun p => p.1)

/-- _detect_design_patterns: lower-cased filename-substring elif chain, plus
the file_purpose tag appended only when that pattern key is not yet present. -/
def detectDesignPatterns (g : AnalysisResult) : List (String × List String) :=
  g.files.foldl (fun patterns fi =>
    let fp := fi.path
    let fl := pyLower fp
    let p1 :=
      if substrOf "factory" fl then bucketAppend patterns "factory" fp
      else if substrOf "builder" fl then bucketAppend patterns "builder" fp
      else if substrOf "adapter" fl then bucketAppend patterns "adapter" fp
      else if substrOf "repository" fl then bucketAppend patterns "repository" fp
      else if substrOf "service" fl then bucketAppend patterns "service" fp
      else if substrOf "controller" fl then bucketAppend patterns "controller" fp
      else patterns
    match fi.file_purpose with
    | some purpose =>
      if purpose ≠ "" ∧ ¬ (p1.any (fun q => q.1 == purpose) = true) then p1 ++ [(purpose, [fp])]
      else p1
    | none => p1) []

/-- _find_architecture_entry_points: well-known file names plus top-level
functions literally named main. -/
def findArchitectureEntryPoints (g : AnalysisResult) : List String :=
  g.files.flatMap (fun fi =>
    let fp := fi.path
    (if substrOf "main.py" fp || substrOf "cli.py" fp then [fp]
     else if substrOf "app.py" fp || substrOf "server.py" fp then [fp]
     else []) ++
    fi.symbols.filterMap (fun s =>
      if s.name == "main" && s.symbol_type == "function" then some (fp ++ "::" ++ s.name)
      else none))

/-- _identify_core_components: per file, outgoing plus incoming dependency
counts; top 10 file paths by count descending (stable). -/
def identifyCoreComponents (st : AgentState) : List String :=
  let componentConnections := st.analysis.files.foldl (fun m fi =>
    let m1 := countAdd m fi.path fi.dependencies.length
    match assocFind st.reverse_dependency_graph fi.path with
    | some revs => countAdd m1 fi.path revs.length
    | none => m1) []
  ((sortDesc (fun p => ((p.2 : Nat) : ℚ)) componentConnections).take 10).map (fun p => p.1)

/-- EnhancedCodebaseAgent.understand_architecture: a pure read of the built
state (its Python body only queries the analysis result and reverse graph). -/
def understandArchitecture (st : AgentState) : ArchitectureMap :=
  { layers := detectLayers st.analysis,
    modules := detectModules st.analysis,
    key_abstractions := extractKeyAbstractions st.analysis,
    design_patterns := detectDesignPatterns st.analysis,
    entry_points := findArchitectureEntryPoints st.analysis,
    core_components := identifyCoreComponents st }

/-! ## Impact analysis (agent/context_manager.py), a pure read -/

/-- Path.stem for ordinary POSIX-style relative file names: final component
without its last extension (a leading dot alone is not an extension). -/
def pyStem (p : String) : String :=
  let base := (pySplitChar p '/').getLastD ""
  let parts := pySplitChar base '.'
  if 2 ≤ parts.length ∧ ¬ (parts.length = 2 ∧ parts.headD "" = "") then
    joinSep "." parts.dropLast
  else base

/-- Path.parent / child for POSIX-style relative paths. -/
def pyParentJoin (p child : String) : String :=
  let comps := pySplitChar p '/'
  if comps.length ≤ 1 then child
  else joinSep "/" comps.dropLast ++ "/" ++ child

/-- ContextManager._find_affected_tests: existence checks for the four fixed
test-file conventions next to the target file. -/
def findAffectedTests (fs : Fs) (target_file : String) : List String :=
  let file_name := pyStem target_file
  let test_patterns :=
    ["test_" ++ file_name ++ ".py",
     file_name ++ "_test.py",
     "tests/test_" ++ file_name ++ ".py",
     "tests/" ++ file_name ++ "_test.py"]
  test_patterns.filterMap (fun pat =>
    let test_path := pyParentJoin target_file pat
    if fs.fileExists test_path then some test_path else none)

/-- ContextManager._assess_risk_level. -/
def assessRiskLevel (change_type : String) (direct_callers indirect_callers : Nat) : String :=
  if change_type == "deletion" || change_type == "signature_change" then
    if 10 < direct_callers || 20 < indirect_callers then "high"
    else if 3 < direct_callers || 10 < indirect_callers then "medium"
    else "low"
  else if change_type == "implementation_change" then
    if 20 < direct_callers then "medium" else "low"
  else "low"

/-- ContextManager.analyze_impact: direct callers from a depth-1 upstream
trace, indirect callers from the depth-3 re-trace (nodes at index 2 and
beyond), affected tests by filename convention, templated breaking-change and
migration notes.  A pure read of the built state and filesystem. -/
def analyzeImpact (fs : Fs) (st : AgentState) (change : CodeChange) : ImpactAnalysis :=
  let call_chain := getCallChain st change.target_symbol "upstream" 1
  let direct_callers := call_chain.upstream.filterMap (fun path =>
    if 1 < path.length then
      ((path.drop 1).head?).map (fun caller_node =>
        ({ file_path := caller_node.file_path, symbol_name := caller_node.symbol_name,
           symbol_type := caller_node.symbol_type, line_start := caller_node.line_number,
           line_end := caller_node.line_number } : CodeLocation))
    else none)
  let extended_chain := getCallChain st change.target_symbol "upstream" 3
  let indirect_callers := extended_chain.upstream.flatMap (fun path =>
    if 2 < path.length then
      (path.drop 2).map (fun node =>
        ({ file_path := node.file_path, symbol_name := node.symbol_name,
           symbol_type := node.symbol_type, line_start := node.line_number,
           line_end := node.line_number } : CodeLocation))
    else [])
  let affected_tests := findAffectedTests fs change.target_file
  let risk := assessRiskLevel change.change_type direct_callers.length indirect_callers.length
  let breaking_changes :=
    if change.change_type == "signature_change" then
      ["Signature change in " ++ change.target_symbol ++ " may break " ++
        toString direct_callers.length ++ " direct callers"]
    else if change.change_type == "deletion" then
      ["Deletion of " ++ change.target_symbol ++ " will break " ++
        toString direct_callers.length ++ " callers"]
    else []
  let migration_notes :=
    if change.change_type == "signature_change" then
      ["Update all callers of " ++ change.target_symbol ++ " to match new signature"]
    else if change.change_type == "deletion" then
      ["Provide alternative implementation or migration path for " ++ change.target_symbol]
    else []
  { change := change, direct_callers := direct_callers, indirect_callers := indirect_callers,
    affected_tests := affected_tests, risk_level := risk,
    breaking_changes := breaking_changes, migration_notes := migration_notes }

end CodeAgent
